import Mathlib

/-!
Shallow embedding of `scripts/style.py`, the LSST C++/python style checker.

The checker reads a file as a list of raw lines, strips comments and string
literals (`parseLines`), annotates each line with structural context flags
(`flagLines`), extracts variable/function/template names with heuristic
pattern matching, runs a catalog of `Test` objects over the annotated lines,
and finally sorts, suppresses and filters the collected `Violation`s.

Python regular expressions used by the program are embedded as dedicated
executable matchers on `List Char`, each faithful to the specific pattern it
models (leftmost match, ordered alternation, greediness resolved where the
pattern makes the choice forced).  Machine integers are modelled as `Int` /
`Nat`; operations of the source that can raise a Python exception
(out-of-range list indexing, `ValueError` from unpacking, `TypeError` from
subscripting a method) are modelled with `Option` / `Except`.
-/

namespace Style

/-- Python `\s` character class for the patterns of `style.py` (`re` on byte
strings: space, tab, newline, carriage return, vertical tab, form feed). -/
def isSpacePy (c : Char) : Bool :=
  c = ' ' || c = '\t' || c = '\n' || c = '\r' || c = '\x0b' || c = '\x0c'

/-- Python `\w` character class: letters, digits and underscore. -/
def isWordPy (c : Char) : Bool :=
  ('a' ≤ c && c ≤ 'z') || ('A' ≤ c && c ≤ 'Z') || ('0' ≤ c && c ≤ '9') || c = '_'

/-- Python `[A-Z]`. -/
def isUpperPy (c : Char) : Bool := 'A' ≤ c && c ≤ 'Z'

/-- Python `[a-z]`. -/
def isLowerPy (c : Char) : Bool := 'a' ≤ c && c ≤ 'z'

/-- Python `[0-9]` / `\d`. -/
def isDigitPy (c : Char) : Bool := '0' ≤ c && c ≤ '9'

/-- First index at which `pat` occurs as a contiguous sublist of `s`
(the position of the leftmost match of a literal pattern), if any. -/
def findSub (pat : List Char) : List Char → Option Nat
  | [] => if pat = [] then some 0 else none
  | c :: cs =>
    if pat.isPrefixOf (c :: cs) then some 0
    else match findSub pat cs with
      | some n => some (n + 1)
      | none => none

/-- Whether a literal pattern occurs somewhere in `s` (`re.search` of a
pattern with no metacharacters). -/
def containsSub (pat s : List Char) : Bool := (findSub pat s).isSome

/-- Index of the start of the last occurrence of `pat` in `s`, if any. -/
def findSubLast (pat : List Char) : List Char → Option Nat
  | [] => if pat = [] then some 0 else none
  | c :: cs =>
    match findSubLast pat cs with
    | some n => some (n + 1)
    | none => if pat.isPrefixOf (c :: cs) then some 0 else none

/-- Python `str.split()` with no argument: split on runs of whitespace,
dropping empty fields. -/
def splitWs (s : List Char) : List (List Char) :=
  (s.splitOnP isSpacePy).filter (fun w => w ≠ [])

/-- Python `s.split(sep)` for a single-character separator: split at every
occurrence, keeping empty fields. -/
def splitOnChar (sep : Char) : List Char → List (List Char)
  | [] => [[]]
  | c :: cs =>
    if c = sep then [] :: splitOnChar sep cs
    else match splitOnChar sep cs with
      | [] => [[c]]
      | w :: ws => (c :: w) :: ws

/-- Python `str.strip()`: remove leading and trailing whitespace. -/
def stripPyStr (s : List Char) : List Char :=
  ((s.dropWhile isSpacePy).reverse.dropWhile isSpacePy).reverse

/-! ### Matchers for the regular expressions of `flagLines`

`flagLines` classifies a stripped line with `re.search` of the anchored
patterns `^\s*class\s+(\w+)\s*:?\s+`, `^\s*struct\s+(\w+)\s*:?\s+`,
`^\s*public:`, `^\s*protected:`, `^\s*private:`, `^};\s*` (and `^\};\s*`,
which matches the same strings), `\{` and `\}`.  Because `^\s*` is followed
by a non-space literal in each anchored pattern, the whitespace star always
consumes exactly the maximal leading run, so each matcher below is the
pattern's unique reading. -/

/-- Matcher for `^\s*KEYWORD\s+(\w+)\s*:?\s+` with `KEYWORD` a literal
(`class` or `struct`); returns the capture group `(\w+)`, the type name.
The trailing `\s*:?\s+` requires, after the name, either at least one
whitespace character, or a `:` followed by at least one whitespace
character (the star can always yield its characters to the plus). -/
def classHead (kw : List Char) (s : List Char) : Option (List Char) :=
  let t := s.dropWhile isSpacePy
  if kw.isPrefixOf t then
    let u := t.drop kw.length
    if (u.takeWhile isSpacePy).length = 0 then none
    else
      let v := u.dropWhile isSpacePy
      let name := v.takeWhile isWordPy
      if name.length = 0 then none
      else
        let rest := v.dropWhile isWordPy
        if 1 ≤ (rest.takeWhile isSpacePy).length then some name
        else match rest with
          | ':' :: r2 => if 1 ≤ (r2.takeWhile isSpacePy).length then some name else none
          | _ => none
  else none

/-- The literal `class`. -/
def kwClass : List Char := ['c', 'l', 'a', 's', 's']

/-- The literal `struct`. -/
def kwStruct : List Char := ['s', 't', 'r', 'u', 'c', 't']

/-- Matcher for `^\s*LITERAL` (used with `public:`, `protected:`,
`private:`): drop the maximal leading whitespace run, then the literal
must follow. -/
def accessHead (kw : List Char) (s : List Char) : Bool :=
  kw.isPrefixOf (s.dropWhile isSpacePy)

/-- The literal `public:`. -/
def kwPublic : List Char := ['p', 'u', 'b', 'l', 'i', 'c', ':']

/-- The literal `protected:`. -/
def kwProtected : List Char := ['p', 'r', 'o', 't', 'e', 'c', 't', 'e', 'd', ':']

/-- The literal `private:`. -/
def kwPrivate : List Char := ['p', 'r', 'i', 'v', 'a', 't', 'e', ':']

/-- Matcher for `^};\s*` (and the identical `^\};\s*`): the line must start
with `};`; the trailing whitespace star is vacuous for `re.search`. -/
def matchCloseBrace (s : List Char) : Bool :=
  ['\x7d', ';'].isPrefixOf s

/-- Matcher for `re.search("\{", s)`. -/
def hasLBrace (s : List Char) : Bool := s.any (fun c => c = '\x7b')

/-- Matcher for `re.search("\}", s)`. -/
def hasRBrace (s : List Char) : Bool := s.any (fun c => c = '\x7d')

/-! ### The context-flag state machine of `flagLines` -/

/-- The seven boolean context flags carried line to line by `flagLines`
(and stamped onto each `Line`). -/
structure CtxFlags where
  inClass : Bool
  inStruct : Bool
  inPublic : Bool
  inProtected : Bool
  inPrivate : Bool
  inNestedClass : Bool
  inNestedStruct : Bool
deriving Repr, DecidableEq

/-- All flags start false at the top of `flagLines`. -/
def initCtx : CtxFlags := ⟨false, false, false, false, false, false, false⟩

/-- One line of the `flagLines` loop, restricted to the seven context
flags; the conditional assignments appear in exactly the source's order
(class, struct, the three access specifiers, the top-level close, the two
nested-close resets), with `justInClassStruct` computed once in between,
as in the source. -/
def stepFlags (f : CtxFlags) (stripped : List Char) : CtxFlags :=
  let f := if (classHead kwClass stripped).isSome then
      { f with inNestedClass := f.inNestedClass || (f.inClass || f.inStruct),
               inClass := true, inStruct := false,
               inPublic := false, inProtected := false, inPrivate := false }
    else f
  let f := if (classHead kwStruct stripped).isSome then
      { f with inNestedStruct := f.inNestedStruct || (f.inClass || f.inStruct),
               inClass := false, inStruct := true,
               inPublic := false, inProtected := false, inPrivate := false }
    else f
  let justInClassStruct := (f.inClass || f.inStruct) && !(f.inNestedClass || f.inNestedStruct)
  let f := if justInClassStruct && accessHead kwPublic stripped then
      { f with inPublic := true, inProtected := false, inPrivate := false }
    else f
  let f := if justInClassStruct && accessHead kwProtected stripped then
      { f with inPublic := false, inProtected := true, inPrivate := false }
    else f
  let f := if justInClassStruct && accessHead kwPrivate stripped then
      { f with inPublic := false, inProtected := false, inPrivate := true }
    else f
  let f := if justInClassStruct && matchCloseBrace stripped then
      { f with inClass := false, inStruct := false,
               inPublic := false, inProtected := false, inPrivate := false }
    else f
  let f := if f.inNestedClass && matchCloseBrace stripped then
      { f with inNestedClass := false }
    else f
  let f := if f.inNestedStruct && matchCloseBrace stripped then
      { f with inNestedStruct := false }
    else f
  f

/-- The signed brace-depth update of one `flagLines` iteration: `nNested`
is incremented when the stripped line contains at least one `{` and
decremented when it contains at least one `}`. -/
def braceDelta (stripped : List Char) : Int :=
  (if hasLBrace stripped then 1 else 0) - (if hasRBrace stripped then 1 else 0)

/-! ### Scanners for the substitutions of `getVariableNames`

Each `re.sub` of the declaration extractor is embedded as a left-to-right
scanner.  A scanner that must jump over the text a match consumed carries a
`skip` counter so the recursion stays structural on the character list. -/

/-- Length of the greedy optional group `(\s*=\s*0)?` of
`const(\s*=\s*0)?` at the head of `rest` (0 when it does not match). -/
def constOptLen (rest : List Char) : Nat :=
  let k := (rest.takeWhile isSpacePy).length
  match rest.drop k with
  | '=' :: r2 =>
    let m := (r2.takeWhile isSpacePy).length
    match r2.drop m with
    | '0' :: _ => k + 1 + m + 1
    | _ => 0
  | _ => 0

/-- Scanner for `re.sub("const(\s*=\s*0)?", "", line)`: remove every
occurrence of `const`, greedily together with a following `\s*=\s*0`. -/
def subConstGo (skip : Nat) : List Char → List Char
  | [] => []
  | c :: cs =>
    match skip with
    | n + 1 => subConstGo n cs
    | 0 =>
      if ("const".data).isPrefixOf (c :: cs) then
        subConstGo (4 + constOptLen ((c :: cs).drop 5)) cs
      else c :: subConstGo 0 cs

/-- Entry point of `subConstGo`. -/
def subConst (s : List Char) : List Char := subConstGo 0 s

/-- Scanner for `re.sub(LITERAL, "", line)` with a plain nonempty literal
pattern (`static`, `typename`): remove every occurrence, leftmost first. -/
def removeLitGo (pat : List Char) (skip : Nat) : List Char → List Char
  | [] => []
  | c :: cs =>
    match skip with
    | n + 1 => removeLitGo pat n cs
    | 0 =>
      if pat.isPrefixOf (c :: cs) then removeLitGo pat (pat.length - 1) cs
      else c :: removeLitGo pat 0 cs

/-- Entry point of `removeLitGo`. -/
def removeLit (pat s : List Char) : List Char := removeLitGo pat 0 s

/-- Scanner for `re.sub("\s+", " ", line)`: replace every maximal
whitespace run with a single space. -/
def collapseWsGo (skip : Nat) : List Char → List Char
  | [] => []
  | c :: cs =>
    match skip with
    | n + 1 => collapseWsGo n cs
    | 0 =>
      if isSpacePy c then
        ' ' :: collapseWsGo ((cs.takeWhile isSpacePy).length) cs
      else c :: collapseWsGo 0 cs

/-- Entry point of `collapseWsGo`. -/
def collapseWs (s : List Char) : List Char := collapseWsGo 0 s

/-- The punctuation class `[\,\=\+\-\/;\(\)\?\:\>\<]` of the whitespace
normalisation of `getVariableNames`. -/
def isPunctSp (c : Char) : Bool :=
  c = ',' || c = '=' || c = '+' || c = '-' || c = '/' || c = ';' ||
  c = '(' || c = ')' || c = '?' || c = ':' || c = '>' || c = '<'

/-- Scanner for `re.sub("\s*([\,\=\+\-\/;\(\)\?\:\>\<])\s*", r'\1', line)`:
each punctuation character, together with the whitespace runs around it,
is replaced by the bare punctuation character. -/
def punctSpGo (skip : Nat) : List Char → List Char
  | [] => []
  | c :: cs =>
    match skip with
    | n + 1 => punctSpGo n cs
    | 0 =>
      let l := c :: cs
      let k := (l.takeWhile isSpacePy).length
      match l.drop k with
      | p :: rest =>
        if isPunctSp p then
          p :: punctSpGo (k + (rest.takeWhile isSpacePy).length) cs
        else c :: punctSpGo 0 cs
      | [] => c :: punctSpGo 0 cs

/-- Entry point of `punctSpGo`. -/
def punctSp (s : List Char) : List Char := punctSpGo 0 s

/-! ### Shape classification of `getVariableNames` -/

/-- Test of `re.search("[^\=]+\([^\)]+\,[^\)]+\)", line)`: somewhere, a
non-`=` character precedes a `(` whose `)`-free span is closed by a `)`
and contains a comma that is neither first nor last in the span. -/
def searchFnCommaParen : List Char → Bool
  | [] => false
  | [_] => false
  | a :: b :: rest =>
    (if b = '(' && a ≠ '=' then
      let seg := rest.takeWhile (fun d => d ≠ ')')
      decide (seg.length < rest.length) && ((seg.drop 1).dropLast).any (fun d => d = ',')
    else false) || searchFnCommaParen (b :: rest)

/-- Test of `re.search("\([^\)]+\s[^\)]+\)", line)`: a parenthesised
`)`-free span containing a whitespace character that is neither first nor
last in the span. -/
def searchParenWsParen : List Char → Bool
  | [] => false
  | c :: cs =>
    (if c = '(' then
      let seg := cs.takeWhile (fun d => d ≠ ')')
      decide (seg.length < cs.length) && ((seg.drop 1).dropLast).any isSpacePy
    else false) || searchParenWsParen cs

/-- Test of `re.search("\(new\s[^\)]+\)", line)`. -/
def searchParenNew : List Char → Bool
  | [] => false
  | c :: cs =>
    (if c = '(' && ("new".data).isPrefixOf cs then
      match cs.drop 3 with
      | w :: after =>
        isSpacePy w &&
          (let seg := after.takeWhile (fun d => d ≠ ')')
           decide (1 ≤ seg.length) && decide (seg.length < after.length))
      | [] => false
    else false) || searchParenNew cs

/-- Test of `re.search("\([^\)]+\)\s*\?\s*", line)`: a closed nonempty
parenthesised span followed, after whitespace, by `?`. -/
def searchParenTernary : List Char → Bool
  | [] => false
  | c :: cs =>
    (if c = '(' then
      let seg := cs.takeWhile (fun d => d ≠ ')')
      decide (1 ≤ seg.length) && decide (seg.length < cs.length) &&
        (match (cs.drop (seg.length + 1)).dropWhile isSpacePy with
         | '?' :: _ => true
         | _ => false)
    else false) || searchParenTernary cs

/-- Test of `re.search("[^\(]+::[^\(]+\(", line)`: a `::` with a non-`(`
character directly before it and, after it, a nonempty `(`-free run closed
by a `(`. -/
def searchColonColonParen : List Char → Bool
  | a :: b :: c :: rest =>
    (if a ≠ '(' && b = ':' && c = ':' then
      let seg := rest.takeWhile (fun d => d ≠ '(')
      decide (1 ≤ seg.length) && decide (seg.length < rest.length)
    else false) || searchColonColonParen (b :: c :: rest)
  | _ => false

/-- Suffix test for `\s*[;\{]?\s*$`: only whitespace, except possibly one
`;` or `{`. -/
def tailSemiBraceOk (t : List Char) : Bool :=
  match t.dropWhile isSpacePy with
  | [] => true
  | c :: r => (c = ';' || c = '\x7b') && (r.dropWhile isSpacePy).isEmpty

/-- Test of `re.search("^[^\(]+\)\s*[;\{]?\s*$", line)`: scanning from the
start, before any `(`, a `)` at index at least 1 whose suffix is
whitespace except possibly one `;` or `{`. -/
def searchEndParenGo : List Char → Nat → Bool
  | [], _ => false
  | c :: cs, i =>
    if c = '(' then false
    else if c = ')' && decide (1 ≤ i) && tailSemiBraceOk cs then true
    else searchEndParenGo cs (i + 1)

/-- Entry point of `searchEndParenGo`. -/
def searchEndParen (s : List Char) : Bool := searchEndParenGo s 0

/-! ### Substitutions of the shape branches -/

/-- Scanner for `re.sub("^[^\(]+\(", "", line)`: when the first `(` sits
at index at least 1, drop everything up to and including it. -/
def subHeadToParen (s : List Char) : List Char :=
  match findSub ['('] s with
  | some i => if 1 ≤ i then s.drop (i + 1) else s
  | none => s

/-- Scanner for `re.sub("\)[^\)]*$", "", line)`: the leftmost `)` whose
suffix is `)`-free is the last `)`; truncate there. -/
def subLastParenToEnd (s : List Char) : List Char :=
  match findSubLast [')'] s with
  | some i => s.take i
  | none => s

/-- Scanner for the global `re.sub("[^\(]+\(", "", line)`: every maximal
nonempty `(`-free run that is followed by a `(` is removed together with
that `(`. -/
def subAnyToParenGo (skip : Nat) : List Char → List Char
  | [] => []
  | c :: cs =>
    match skip with
    | n + 1 => subAnyToParenGo n cs
    | 0 =>
      if c = '(' then c :: subAnyToParenGo 0 cs
      else
        let seg := (c :: cs).takeWhile (fun d => d ≠ '(')
        if seg.length < (c :: cs).length then subAnyToParenGo seg.length cs
        else c :: subAnyToParenGo 0 cs

/-- Entry point of `subAnyToParenGo`. -/
def subAnyToParen (s : List Char) : List Char := subAnyToParenGo 0 s

/-- Inner condition of a `[^\(]+::[^\(]+\(` match within the `(`-free run
`seg`: a `::` occurs with at least one character before and after it
inside the run. -/
def hasInnerCC (seg : List Char) : Bool :=
  containsSub [':', ':'] ((seg.drop 1).dropLast)

/-- Scanner for the global `re.sub("[^\(]+::[^\(]+\(", "", line)`. -/
def subCCParenGo (skip : Nat) : List Char → List Char
  | [] => []
  | c :: cs =>
    match skip with
    | n + 1 => subCCParenGo n cs
    | 0 =>
      if c = '(' then c :: subCCParenGo 0 cs
      else
        let seg := (c :: cs).takeWhile (fun d => d ≠ '(')
        if seg.length < (c :: cs).length && hasInnerCC seg then
          subCCParenGo seg.length cs
        else c :: subCCParenGo 0 cs

/-- Entry point of `subCCParenGo`. -/
def subCCParen (s : List Char) : List Char := subCCParenGo 0 s

/-- Scanner for the global `re.sub("\)[^\)]*", "", line)`: everything from
the first `)` on is removed. -/
def subFirstParenClose (s : List Char) : List Char :=
  s.takeWhile (fun c => c ≠ ')')

/-- Scanner for `re.sub("\)\s*[;\{]?\s*$", "", line)`: truncate at the
leftmost `)` whose suffix matches `\s*[;\{]?\s*$`. -/
def subEndParen : List Char → List Char
  | [] => []
  | c :: cs =>
    if c = ')' && tailSemiBraceOk cs then []
    else c :: subEndParen cs

/-- Scanner for `re.search("[^:]:([^:].*)$", line)`: index of the leftmost
non-`:` character followed by `:` and a non-`:` character.  The source
then strips `":" + group(1)` from the end of the line (escaping only
parentheses in the group), which keeps exactly the first `i + 1`
characters; groups containing other regex metacharacters would behave
differently in Python, but no call site produces them. -/
def colonCutGo : List Char → Nat → Option Nat
  | a :: b :: c :: rest, i =>
    if a ≠ ':' && b = ':' && c ≠ ':' then some i
    else colonCutGo (b :: c :: rest) (i + 1)
  | _, _ => none

/-- Entry point of `colonCutGo`. -/
def colonCutIdx (s : List Char) : Option Nat := colonCutGo s 0

/-! ### Type alternation, triage and candidate matching -/

/-- The primitive type names of `getPrimitives`, in source order. -/
def getPrimitives : List String :=
  ["int", "float", "double", "unsigned int", "char",
   "long", "long long", "unsigned short", "unsigned short int", "bool"]

/-- The `|`-joined primitive alternation of `getPrimitivesOr`. -/
def getPrimitivesOr : String := "|".intercalate getPrimitives

/-- The user-type pattern string of `getUserTypeRegex`. -/
def getUserTypeRegex : String := "[A-Z]\\w+(?:\\<\\w+\\>)?"

/-- One alternative of a type alternation (`stypes`): a literal type name,
or the user-type pattern `[A-Z]\w+`, optionally extended by the template
suffix `(?:\<\w+\>)?` (present in `getUserTypeRegex`, absent in the
alternation used by `getFunctionNames`). -/
inductive BaseAlt where
  | lit (kw : List Char)
  | userType (angle : Bool)
deriving Repr, DecidableEq

/-- Match length of the greedy optional `\<\w+\>` at the head of `cs`. -/
def angleLen (cs : List Char) : Option Nat :=
  match cs with
  | '<' :: rest =>
    let r := rest.takeWhile isWordPy
    if 1 ≤ r.length then
      match rest.drop r.length with
      | '>' :: _ => some (r.length + 2)
      | _ => none
    else none
  | _ => none

/-- Candidate match lengths of one alternative at the head of `cs`, in the
regex engine's backtracking order: a literal offers its own length; the
user-type pattern `[A-Z]\w+` offers every greedy word-run length from
longest to shortest, each first with and then without the angle suffix
when it is enabled and present. -/
def altCandLens (alt : BaseAlt) (cs : List Char) : List Nat :=
  match alt with
  | .lit kw => if kw.isPrefixOf cs then [kw.length] else []
  | .userType angle =>
    match cs with
    | c :: rest =>
      if isUpperPy c then
        let r := (rest.takeWhile isWordPy).length
        (List.range r).reverse.flatMap (fun j =>
          let k := j + 1
          if angle then
            match angleLen (cs.drop (1 + k)) with
            | some a => [1 + k + a, 1 + k]
            | none => [1 + k]
          else [1 + k])
      else []
    | [] => []

/-- Candidate match lengths of the whole anchored alternation
`^(?:stypes)`, alternatives tried in order. -/
def baseCandLens (stypes : List BaseAlt) (cs : List Char) : List Nat :=
  stypes.flatMap (fun alt => altCandLens alt cs)

/-- The default `stypes` of `getVariableNames`:
`getPrimitivesOr() + "|" + getUserTypeRegex()`. -/
def defaultStypes : List BaseAlt :=
  getPrimitives.map (fun p => .lit p.data) ++ [.userType true]

/-- The alternation `getPrimitivesOr() + "|[A-Z]\w+"` used by
`getFunctionNames`. -/
def fnStypes : List BaseAlt :=
  getPrimitives.map (fun p => .lit p.data) ++ [.userType false]

/-- Scanner for `re.sub(base, "", rawSplit)` with `base = "^(?:stypes)"`:
remove the first alternative's greedy match at the head, if any. -/
def subBase (stypes : List BaseAlt) (cs : List Char) : List Char :=
  match (baseCandLens stypes cs).head? with
  | some l => cs.drop l
  | none => cs

/-- Continuation test `pointRef + plainVar` of the triage pattern: one of
`\s+[\&\*]\s*`, `[\&\*]\s+`, `\s+`, followed by a word character. -/
def pointRefWordOk (cs : List Char) : Bool :=
  (let k := (cs.takeWhile isSpacePy).length
   decide (1 ≤ k) &&
     match cs.drop k with
     | c :: rest =>
       (c = '&' || c = '*') &&
         (match rest.dropWhile isSpacePy with
          | d :: _ => isWordPy d
          | [] => false)
     | [] => false) ||
  (match cs with
   | c :: rest =>
     (c = '&' || c = '*') && decide (1 ≤ (rest.takeWhile isSpacePy).length) &&
       (match rest.dropWhile isSpacePy with
        | d :: _ => isWordPy d
        | [] => false)
   | [] => false) ||
  (let k := (cs.takeWhile isSpacePy).length
   decide (1 ≤ k) &&
     match cs.drop k with
     | d :: _ => isWordPy d
     | [] => false)

/-- Triage test `re.search(base + pointRef + plainVar, raw)` of
`getVariableNames`: some alternative's candidate length is followed by a
pointer/reference separator and a word character. -/
def triageOk (stypes : List BaseAlt) (raw : List Char) : Bool :=
  (baseCandLens stypes raw).any (fun l => pointRefWordOk (raw.drop l))

/-- Test of `re.search("^\s*return\s", raw)`. -/
def isReturnStmt (raw : List Char) : Bool :=
  let t := raw.dropWhile isSpacePy
  ("return".data).isPrefixOf t &&
    (match t.drop 6 with
     | c :: _ => isSpacePy c
     | [] => false)

/-- Test of `re.search("[^\s]\s*\,\s*[^\s]", raw)`: a comma with some
non-whitespace character before it and some after it (the nearest such
characters are separated from the comma only by whitespace). -/
def commaSepGo (seenBefore : Bool) : List Char → Bool
  | [] => false
  | c :: cs =>
    if c = ',' && seenBefore && cs.any (fun d => ¬ isSpacePy d) then true
    else commaSepGo (seenBefore || ¬ isSpacePy c) cs

/-- Entry point of `commaSepGo`. -/
def commaSepOk (raw : List Char) : Bool := commaSepGo false raw

/-- Scanner for `re.sub(";\s*$", "", rawSplit)`: truncate at the leftmost
`;` that is followed only by whitespace. -/
def subSemiEnd : List Char → List Char
  | [] => []
  | c :: cs =>
    if c = ';' && cs.all isSpacePy then []
    else c :: subSemiEnd cs

/-- Tail test for the assignment suffix `\=[^\s\,]+` anchored at `$`. -/
def assignedTailOk : List Char → Bool
  | '=' :: u => decide (1 ≤ u.length) && u.all (fun c => ¬ isSpacePy c && c ≠ ',')
  | _ => false

/-- Tail test for a bracketed suffix `OPENER[^CLOSER]+CLOSER` anchored at
`$`. -/
def parenTailOk (opener closer : Char) (u : List Char) : Bool :=
  match u with
  | c :: rest =>
    c = opener &&
      (match rest.getLast? with
       | some d =>
         d = closer && decide (1 ≤ rest.dropLast.length) &&
           rest.dropLast.all (fun e => e ≠ closer)
       | none => false)
  | [] => false

/-- Tail test for the constructor-call suffix `\s?\([^\)]+\)` anchored at
`$`. -/
def instantTailOk (t : List Char) : Bool :=
  parenTailOk '(' ')' t ||
    (match t with
     | w :: rest => isSpacePy w && parenTailOk '(' ')' rest
     | [] => false)

/-- Tail test for the array suffix `\s?\[[^\]]+\]` anchored at `$`. -/
def arrayTailOk (t : List Char) : Bool :=
  parenTailOk '[' ']' t ||
    (match t with
     | w :: rest => isSpacePy w && parenTailOk '[' ']' rest
     | [] => false)

/-- Tail test of the candidate-variable pattern
`(\w[\w\d]*(?:\=[^\s\,]+|\s?\([^\)]+\)|\s?\[[^\]]+\])?)$` after the word
run: end of string, or one of the three optional suffixes running to the
end. -/
def varTailOk (t : List Char) : Bool :=
  t.isEmpty || assignedTailOk t || instantTailOk t || arrayTailOk t

/-- Leftmost match of the candidate-variable pattern: at the first word
character whose maximal word run is followed by an admissible tail, the
captured group is the whole remaining suffix (the pattern is anchored at
`$`, so the match runs to the end of the string). -/
def findVarMatch : List Char → Option (List Char)
  | [] => none
  | c :: cs =>
    if isWordPy c then
      let run := (c :: cs).takeWhile isWordPy
      if varTailOk ((c :: cs).drop run.length) then some (c :: cs)
      else findVarMatch cs
    else findVarMatch cs

/-- Scanner for the global `re.sub("\([^\)]*\)", "", variable)`: remove
every closed parenthesised span with a `)`-free (possibly empty) body. -/
def removeParenGroupsGo (skip : Nat) : List Char → List Char
  | [] => []
  | c :: cs =>
    match skip with
    | n + 1 => removeParenGroupsGo n cs
    | 0 =>
      if c = '(' then
        let seg := cs.takeWhile (fun d => d ≠ ')')
        if seg.length < cs.length then removeParenGroupsGo (seg.length + 1) cs
        else c :: removeParenGroupsGo 0 cs
      else c :: removeParenGroupsGo 0 cs

/-- Entry point of `removeParenGroupsGo`. -/
def removeParenGroups (s : List Char) : List Char := removeParenGroupsGo 0 s

/-- After-`v` condition of `\<[^\>]*V[^\<]*\>`: the first `>` in the
remainder exists and no `<` precedes it. -/
def closeAfterV (after : List Char) : Bool :=
  let seg := after.takeWhile (fun d => d ≠ '>')
  decide (seg.length < after.length) && seg.all (fun d => d ≠ '<')

/-- Occurrence scan for `V[^\<]*\>` within a `>`-free region: try `v` at
each position until a `>` is passed. -/
def vThenClose (v : List Char) : List Char → Bool
  | [] => false
  | c :: cs =>
    (v.isPrefixOf (c :: cs) && closeAfterV ((c :: cs).drop v.length)) ||
      (if c = '>' then false else vThenClose v cs)

/-- Test of `re.search("\<[^\>]*" + variable + "[^\<]*\>", originalLine)`
(the template-argument exclusion of `getVariableNames`); `variable` is
inserted literally, which is faithful whenever it contains no regex
metacharacters, as at every exercised call. -/
def inTemplateList (v : List Char) : List Char → Bool
  | [] => false
  | c :: cs => (c = '<' && vThenClose v cs) || inTemplateList v cs

/-! ### `getVariableNames` -/

/-- Finalisation of one captured candidate, from the source's inner loop:
skip a bare newline artefact, strip an `=`-assignment, strip `(...)`
constructor arguments, drop the candidate when it occurs inside a
template-argument list of the original line, and `strip()` the result. -/
def finalizeVariable (orig g : List Char) : Option (List Char) :=
  if g = ['\n'] then none
  else
    let v1 := g.takeWhile (fun c => c ≠ '=')
    let v2 := removeParenGroups v1
    if inTemplateList v2 orig then none
    else some (stripPyStr v2)

/-- Processing of one entry of `rawList`: skip `return` statements, triage
against `base + pointRef + plainVar`, split on commas when the line holds
a comma-separated declaration list, strip the type and the trailing
semicolon from each piece, match the candidate-variable pattern, and
finalise each captured candidate. -/
def doRaw (stypes : List BaseAlt) (orig raw : List Char) : List (List Char) :=
  if isReturnStmt raw then []
  else if ¬ triageOk stypes raw then []
  else
    let rawSplitList := if commaSepOk raw then splitOnChar ',' raw else [raw]
    let vars := rawSplitList.filterMap (fun rawSplit =>
      findVarMatch (subSemiEnd (subBase stypes rawSplit)))
    vars.filterMap (finalizeVariable orig)

/-- Embedding of `getVariableNames(line, stypes)`.  The preprocessing
substitutions, the four shape branches (function with comma-separated
arguments; parenthesised span with internal whitespace that is neither a
`new` expression nor a ternary; qualified `::` call; trailing unmatched
`)`), the single-colon cut and the per-candidate loop follow the source
statement by statement. -/
def getVariableNamesCore (stypes : List BaseAlt) (line : String) : List String :=
  let orig := line.data
  let l1 := subConst orig
  let l2 := removeLit ("static".data) l1
  let l3 := removeLit ("typename".data) l2
  let l4 := l3.dropWhile isSpacePy
  let l5 := collapseWs l4
  let l6 := punctSp l5
  let br :=
    if searchFnCommaParen l6 then
      let a := subLastParenToEnd (subHeadToParen l6)
      (a, splitOnChar ',' a)
    else if searchParenWsParen l6 && !searchParenNew l6 && !searchParenTernary l6 then
      let a := subLastParenToEnd (subAnyToParen l6)
      (a, [a])
    else if searchColonColonParen l6 then
      let a0 := subCCParen l6
      let a := if a0.any (fun c => c = ')') then subFirstParenClose a0 else a0
      (a, [a])
    else if searchEndParen l6 then
      let a := subEndParen l6
      (a, [a])
    else (l6, [l6])
  let cut :=
    match colonCutIdx br.fst with
    | some i => ((br.fst.take (i + 1)), [br.fst.take (i + 1)])
    | none => br
  (cut.snd.flatMap (doRaw stypes orig)).map (fun v => String.mk v)

/-- Embedding of `getVariableNames(line)` at the default `stypes`. -/
def getVariableNames (line : String) : List String :=
  getVariableNamesCore defaultStypes line

/-! ### `getFunctionNames` -/

/-- Name-and-parenthesis tail `(\w[\w\d]*)\(` of the function pattern: the
maximal word run (at least one character) must be followed by `(`; the
rest of the pattern, `.*(?:\)\s*\{|\,|\)\s*\{\s*\};|)\s*$`, always matches
because its alternation contains the empty alternative. -/
def fnName (v : List Char) : Option (List Char) :=
  let run := v.takeWhile isWordPy
  if 1 ≤ run.length then
    match v.drop run.length with
    | '(' :: _ => some run
    | _ => none
  else none

/-- Separator `(?:\s+[\&\*]\s*|\s*[\&\*]\s+|\s+)` then the name, the three
alternatives tried in the engine's order. -/
def fnSepName (w : List Char) : Option (List Char) :=
  let k := (w.takeWhile isSpacePy).length
  let alt1 :=
    if 1 ≤ k then
      match w.drop k with
      | c :: rest =>
        if c = '&' || c = '*' then fnName (rest.dropWhile isSpacePy) else none
      | [] => none
    else none
  match alt1 with
  | some g => some g
  | none =>
    let alt2 :=
      match w.drop k with
      | c :: rest =>
        if (c = '&' || c = '*') && 1 ≤ (rest.takeWhile isSpacePy).length then
          fnName (rest.dropWhile isSpacePy)
        else none
      | [] => none
    match alt2 with
    | some g => some g
    | none => if 1 ≤ k then fnName (w.drop k) else none

/-- Optional `(?:\s+const)?` (tried consumed first, as the engine does)
then the separator and name. -/
def fnAfterConst (u : List Char) : Option (List Char) :=
  let k := (u.takeWhile isSpacePy).length
  let withConst :=
    if 1 ≤ k && ("const".data).isPrefixOf (u.drop k) then
      fnSepName (u.drop (k + 5))
    else none
  match withConst with
  | some g => some g
  | none => fnSepName u

/-- Type alternation of the function pattern, candidates in engine order,
each followed by the optional `const`, the separator and the name. -/
def fnAfterType (u : List Char) : Option (List Char) :=
  (baseCandLens fnStypes u).findSome? (fun l => fnAfterConst (u.drop l))

/-- Embedding of `getFunctionNames(line)`: the anchored pattern
`^\s*(?:inline\s+)?(?:stypes)(?:\s+const)?(?:sep)(\w[\w\d]*)\(.*(?:ends|)\s*$`
with `stypes = getPrimitivesOr() + "|[A-Z]\w+"`; at most one name is
produced. -/
def getFunctionNames (line : String) : List String :=
  let t := line.data.dropWhile isSpacePy
  let withInline :=
    if ("inline".data).isPrefixOf t then
      let u := t.drop 6
      let k := (u.takeWhile isSpacePy).length
      if 1 ≤ k then fnAfterType (u.drop k) else none
    else none
  match withInline with
  | some g => [String.mk g]
  | none =>
    match fnAfterType t with
    | some g => [String.mk g]
    | none => []

/-! ### `getTemplateNames` -/

/-- Lazy group of `^\s*template<(.*?)>\s*$`: the group ends at the first
`>` whose suffix is entirely whitespace. -/
def lazyToCloseAllWs : List Char → Option (List Char)
  | [] => none
  | c :: cs =>
    if c = '>' && cs.all isSpacePy then some []
    else
      match lazyToCloseAllWs cs with
      | some inner => some (c :: inner)
      | none => none

/-- The keyword alternatives of the template-parameter cleanup, in source
order. -/
def tplKws : List (List Char) :=
  ["typename".data, "class".data, "bool".data, "float".data,
   "double".data, "int".data, "unsigned int".data]

/-- Match length of `,?\s*(typename|class|bool|float|double|int|unsigned int)`
at the head of `l` (the optional comma is greedy; when the head is a comma
the comma-less reading cannot match, since no keyword starts with `,`). -/
def tplMatchLenAt (l : List Char) : Option Nat :=
  match l with
  | ',' :: rest =>
    let k := (rest.takeWhile isSpacePy).length
    match (tplKws.find? (fun kw => kw.isPrefixOf (rest.drop k))).map List.length with
    | some n => some (1 + k + n)
    | none => none
  | _ =>
    let k := (l.takeWhile isSpacePy).length
    match (tplKws.find? (fun kw => kw.isPrefixOf (l.drop k))).map List.length with
    | some n => some (k + n)
    | none => none

/-- Scanner for the global keyword-removal substitution of
`getTemplateNames`. -/
def removeTplKwGo (skip : Nat) : List Char → List Char
  | [] => []
  | c :: cs =>
    match skip with
    | n + 1 => removeTplKwGo n cs
    | 0 =>
      match tplMatchLenAt (c :: cs) with
      | some n => removeTplKwGo (n - 1) cs
      | none => c :: removeTplKwGo 0 cs

/-- Embedding of `getTemplateNames(line)`. -/
def getTemplateNames (line : String) : List String :=
  let t := line.data.dropWhile isSpacePy
  if ("template<".data).isPrefixOf t then
    match lazyToCloseAllWs (t.drop 9) with
    | some inner => (splitWs (removeTplKwGo 0 inner)).map (fun w => String.mk w)
    | none => []
  else []

/-! ### The `Line` data model

Input lines are modelled newline-free: the caller of `parseLines` reads
physical lines, and none of the embedded matchers distinguishes a trailing
newline in a way the claims depend on. -/

/-- Embedding of the `Line` class: one physical input line with its
stripped text, 1-based number, extracted name lists, context flags,
enclosing type names, brace depth and inline-suppression tokens.  The
seven context flags are grouped in `ctx` and exposed through accessors
named as the source attributes.  (`nNested` is only assigned by
`flagLines` in the source; the constructor default 0 here is never read
before `flagLines` stamps it.) -/
structure Line where
  raw : String
  stripped : String
  number : Nat
  variableNames : List String
  functionNames : List String
  templateNames : List String
  ctx : CtxFlags
  className : String
  structName : String
  nNested : Int
  suppress : List String
deriving Repr, DecidableEq

/-- Attribute `line.inClass`. -/
def Line.inClass (l : Line) : Bool := l.ctx.inClass

/-- Attribute `line.inStruct`. -/
def Line.inStruct (l : Line) : Bool := l.ctx.inStruct

/-- Attribute `line.inPublic`. -/
def Line.inPublic (l : Line) : Bool := l.ctx.inPublic

/-- Attribute `line.inProtected`. -/
def Line.inProtected (l : Line) : Bool := l.ctx.inProtected

/-- Attribute `line.inPrivate`. -/
def Line.inPrivate (l : Line) : Bool := l.ctx.inPrivate

/-- Attribute `line.inNestedClass`. -/
def Line.inNestedClass (l : Line) : Bool := l.ctx.inNestedClass

/-- Attribute `line.inNestedStruct`. -/
def Line.inNestedStruct (l : Line) : Bool := l.ctx.inNestedStruct

/-- The `Line(raw, stripped)` constructor defaults. -/
def mkLine (raw stripped : String) : Line :=
  ⟨raw, stripped, 0, [], [], [], initCtx, "", "", 0, []⟩

/-! ### `flagLines` -/

/-- The mutable scan state of `flagLines`: the context flags, the brace
depth and the most recent class/struct names. -/
structure FlagState where
  ctx : CtxFlags
  nNested : Int
  className : List Char
  structName : List Char
deriving Repr, DecidableEq

/-- The state at the top of `flagLines`. -/
def initFlagState : FlagState := ⟨initCtx, 0, [], []⟩

/-- One iteration of the `flagLines` loop: update the flags, the recorded
class/struct names and the brace depth, then stamp the line with the
updated flags and depth (the stamped depth includes this line's own
braces, and the class/struct name is stamped only while inside one), and
attach the extracted variable, function and template names. -/
def flagStep (st : FlagState) (l : Line) : FlagState × Line :=
  let s := l.stripped.data
  let ctx2 := stepFlags st.ctx s
  let className2 := match classHead kwClass s with
    | some n => n
    | none => st.className
  let structName2 := match classHead kwStruct s with
    | some n => n
    | none => st.structName
  let nNested2 := st.nNested + braceDelta s
  (⟨ctx2, nNested2, className2, structName2⟩,
   { l with
      ctx := ctx2,
      className := if ctx2.inClass then String.mk className2 else l.className,
      structName := if ctx2.inStruct then String.mk structName2 else l.structName,
      nNested := nNested2,
      variableNames := getVariableNames l.stripped,
      functionNames := getFunctionNames l.stripped,
      templateNames := getTemplateNames l.stripped })

/-- The `flagLines` loop from a given state. -/
def flagLinesGo (st : FlagState) : List Line → List Line
  | [] => []
  | l :: ls =>
    let p := flagStep st l
    p.2 :: flagLinesGo p.1 ls

/-- Embedding of `flagLines(lines)`. -/
def flagLines (lines : List Line) : List Line := flagLinesGo initFlagState lines

/-! ### `parseLines` -/

/-- Lazy closing offset for `\/\*.+?\*\/`: the first `*/` at offset at
least 1 after the opener (the lazy body must be nonempty). -/
def findCloseLazy (rest : List Char) : Option Nat :=
  match findSub ['*', '/'] rest with
  | some 0 => (findSub ['*', '/'] (rest.drop 1)).map (fun n => n + 1)
  | r => r

/-- Scanner for the global `re.sub("\/\*.+?\*\/", "", stripped)`. -/
def subBlockCommentGo (skip : Nat) : List Char → List Char
  | [] => []
  | c :: cs =>
    match skip with
    | n + 1 => subBlockCommentGo n cs
    | 0 =>
      if c = '/' then
        match cs with
        | '*' :: rest =>
          match findCloseLazy rest with
          | some m => subBlockCommentGo (m + 3) cs
          | none => c :: subBlockCommentGo 0 cs
        | _ => c :: subBlockCommentGo 0 cs
      else c :: subBlockCommentGo 0 cs

/-- Entry point of `subBlockCommentGo`. -/
def subBlockComment (s : List Char) : List Char := subBlockCommentGo 0 s

/-- Truncation sub `re.sub(PAT ++ ".*$", "", s)` for a literal `PAT`:
remove everything from the first occurrence on. -/
def truncAtSub (pat s : List Char) : List Char :=
  match findSub pat s with
  | some i => s.take i
  | none => s

/-- Sub `re.sub("^.*" ++ PAT, "", s)` for a literal `PAT`: the greedy
`^.*` reaches the last occurrence; keep what follows it. -/
def keepAfterLastSub (pat s : List Char) : List Char :=
  match findSubLast pat s with
  | some i => s.drop (i + pat.length)
  | none => s

/-- Scanner for `re.sub("\"[^\"]*\"", "\"\"", stripped)`: empty the body
of every closed double-quoted string. -/
def subQuotesGo (skip : Nat) : List Char → List Char
  | [] => []
  | c :: cs =>
    match skip with
    | n + 1 => subQuotesGo n cs
    | 0 =>
      if c = '"' then
        let seg := cs.takeWhile (fun d => d ≠ '"')
        if seg.length < cs.length then '"' :: '"' :: subQuotesGo (seg.length + 1) cs
        else c :: subQuotesGo 0 cs
      else c :: subQuotesGo 0 cs

/-- Entry point of `subQuotesGo`. -/
def subQuotes (s : List Char) : List Char := subQuotesGo 0 s

/-- The C/C++ branch of the comment stripper of `parseLines`, one line:
block comments (same-line closed with a nonempty body, or opened /
continued / closed across lines via the `inComment` state), then doxygen
`///<` and `//` comments, then quoted strings except on `#include`
lines. -/
def stripCLine (inComment : Bool) (raw : List Char) : Bool × List Char :=
  let stripped := raw
  let step1 :=
    if containsSub ['/', '*'] stripped && ¬ inComment then
      if containsSub ['*', '/'] stripped then (subBlockComment stripped, inComment)
      else (truncAtSub ['/', '*'] stripped, true)
    else (stripped, inComment)
  let step2 :=
    if containsSub ['*', '/'] step1.1 && step1.2 then
      (keepAfterLastSub ['*', '/'] step1.1, false)
    else step1
  let stripped2 := if step2.2 then [] else step2.1
  let stripped3 := truncAtSub ['/', '/', '/', '<'] stripped2
  let stripped4 := truncAtSub ['/', '/'] stripped3
  let stripped5 :=
    if ¬ ("#include".data).isPrefixOf stripped4 then subQuotes stripped4 else stripped4
  (step2.2, stripped5)

/-- The triple-quote literal. -/
def tripleQuote : List Char := ['"', '"', '"']

/-- Test of `re.search("\"\"\".*?\"\"\"", stripped)`: a closed (possibly
empty-bodied) triple-quoted span. -/
def hasTripleQuotePair (s : List Char) : Bool :=
  match findSub tripleQuote s with
  | some i => containsSub tripleQuote (s.drop (i + 3))
  | none => false

/-- Scanner for the global `re.sub("\"\"\".*?\"\"\"", "", stripped)`. -/
def subTripleQuoteGo (skip : Nat) : List Char → List Char
  | [] => []
  | c :: cs =>
    match skip with
    | n + 1 => subTripleQuoteGo n cs
    | 0 =>
      if tripleQuote.isPrefixOf (c :: cs) then
        match findSub tripleQuote ((c :: cs).drop 3) with
        | some m => subTripleQuoteGo (m + 5) cs
        | none => c :: subTripleQuoteGo 0 cs
      else c :: subTripleQuoteGo 0 cs

/-- The python branch of the comment stripper of `parseLines`, one line:
triple-quoted doc strings (same-line closed, or opened / continued /
closed via the `inPyDoc` state), escaped quotes, quoted strings, and `#`
comments. -/
def stripPyLine (inPyDoc : Bool) (raw : List Char) : Bool × List Char :=
  let stripped := raw
  let step1 :=
    if containsSub tripleQuote stripped && ¬ inPyDoc then
      if hasTripleQuotePair stripped then (subTripleQuoteGo 0 stripped, inPyDoc)
      else (truncAtSub tripleQuote stripped, true)
    else (stripped, inPyDoc)
  let step2 :=
    if containsSub tripleQuote step1.1 && step1.2 then
      (keepAfterLastSub tripleQuote step1.1, false)
    else step1
  let stripped2 := if step2.2 then [] else step2.1
  let stripped3 := removeLit ['\\', '"'] stripped2
  let stripped4 := subQuotes stripped3
  let stripped5 := stripped4.takeWhile (fun c => c ≠ '#')
  (step2.2, stripped5)

/-- The literal `parasoft-suppress`. -/
def kwParasoft : List Char := "parasoft-suppress".data

/-- Extraction of `re.search("parasoft-suppress\s+([^\"]+)", raw)` and
`group(1).split()`: at the first occurrence of the literal followed by a
whitespace character with a quote-free region of length at least 2 (so
that `\s+` and `[^\"]+` can both be nonempty), the whitespace-split
tokens of that region; the engine moves to a later occurrence when the
region is too short. -/
def parasoftTokens : List Char → List String
  | [] => []
  | c :: cs =>
    if kwParasoft.isPrefixOf (c :: cs) then
      let q := (c :: cs).drop kwParasoft.length
      match q with
      | w :: _ =>
        if isSpacePy w then
          let region := q.takeWhile (fun d => d ≠ '"')
          if 2 ≤ region.length then (splitWs region).map (fun t => String.mk t)
          else parasoftTokens cs
        else parasoftTokens cs
      | [] => parasoftTokens cs
    else parasoftTokens cs

/-- The loop of `parseLines`: strip each raw line according to the file
type (threading the multi-line comment states), then build the `Line`
with its 1-based number and its inline-suppression tokens. -/
def parseLinesGo (filetype : String) (inComment inPyDoc : Bool) (iLine : Nat) :
    List String → List Line
  | [] => []
  | raw :: rest =>
    let pc :=
      if ["c", "cc", "h"].contains filetype then stripCLine inComment raw.data
      else (inComment, raw.data)
    let pp :=
      if filetype = "py" then stripPyLine inPyDoc pc.2
      else (inPyDoc, pc.2)
    { mkLine raw (String.mk pp.2) with
        number := iLine + 1,
        suppress := parasoftTokens raw.data } ::
      parseLinesGo filetype pc.1 pp.1 (iLine + 1) rest

/-- Embedding of `parseLines(lines, filetype)`: strip and number every
line, then run `flagLines` over the result. -/
def parseLines (lines : List String) (filetype : String) : List Line :=
  flagLines (parseLinesGo filetype false false 0 lines)

/-! ### `getDefinitionLength` -/

/-- Test of `re.search(";\s*$", s)`: the last non-whitespace character is
`;`. -/
def endsSemi (s : List Char) : Bool :=
  match s.reverse.dropWhile isSpacePy with
  | ';' :: _ => true
  | _ => false

/-- The first scan of `getDefinitionLength` over a line suffix: `False`
(declaration) at the first line ending in `;`, `True` (definition) at the
first line containing `{`, `none` when neither occurs before the end of
the file (`isDefinition` stays `None`). -/
def scanTerm : List Line → Option Bool
  | [] => none
  | l :: ls =>
    if endsSemi l.stripped.data then some false
    else if hasLBrace l.stripped.data then some true
    else scanTerm ls

/-- The second scan of `getDefinitionLength` over a line suffix: offset of
the first line containing `}`; `none` when there is none, in which case
the source's `while` loop indexes past the end of the list and raises
`IndexError`. -/
def findBraceOff : List Line → Option Nat
  | [] => none
  | l :: ls =>
    if hasRBrace l.stripped.data then some 0
    else (findBraceOff ls).map (fun n => n + 1)

/-- Embedding of `getDefinitionLength(lines, iLine)` for a 1-based start
index (every call passes a `line.number`): `some (-1)` for a declaration
or when no terminator is found, the line count for a definition, and
`none` when the unbounded `}` scan of a definition runs past the end of
the file (the modelled `IndexError`). -/
def getDefinitionLength (lines : List Line) (iLine : Nat) : Option Int :=
  let start := iLine - 1
  match scanTerm (lines.drop start) with
  | some true =>
    match findBraceOff (lines.drop start) with
    | some off => some (((start + off : Nat) : Int) - (iLine : Int))
    | none => none
  | _ => some (-1)

/-! ### `Test` and `Violation` -/

/-- Embedding of the `Test` base class's constructor state: severity,
regex source string, rule id, description, the input file's type and the
file types the test applies to. -/
structure Test where
  severity : Int
  regex : String
  id : String
  comment : String
  filetype : String
  typeList : List String
deriving Repr, DecidableEq

/-- Embedding of the `Violation` class: the originating test, the
offending line, the line number recorded at construction, and the
optional elaboration. -/
structure Violation where
  test : Test
  line : Line
  lineNumber : Nat
  extraComment : String
deriving Repr, DecidableEq

/-- The `Violation(test, line, extraComment)` constructor:
`self.lineNumber = line.number`. -/
def mkViolation (t : Test) (l : Line) (extra : String) : Violation :=
  ⟨t, l, l.number, extra⟩

/-- Method `Violation.getId`. -/
def Violation.getId (v : Violation) : String := v.test.id

/-- Method `Violation.getSeverity`. -/
def Violation.getSeverity (v : Violation) : Int := v.test.severity

/-- Method `Violation.getLineNumber`. -/
def Violation.getLineNumber (v : Violation) : Nat := v.lineNumber

/-! ### The two custom rules the claims examine -/

/-- Test of `re.search("^\s*\{", stripped)` (rule 6-4). -/
def matchKROpen (s : List Char) : Bool :=
  match s.dropWhile isSpacePy with
  | '\x7b' :: _ => true
  | _ => false

/-- Test of `re.search("[^\s]+", stripped)`: some non-whitespace
character. -/
def hasNonWs (s : List Char) : Bool := s.any (fun c => ¬ isSpacePy c)

/-- A default line used by `pyIndexD` outside the index range; every use
in a theorem is guarded by a hypothesis keeping the index in range, where
Python indexing is total. -/
def degenerateLine : Line := mkLine "" ""

/-- Python list indexing `lines[i]` with a possibly negative index:
negative indices count from the end.  (Out-of-range indices raise in
Python; this total model returns `degenerateLine` there and is only used
where the index is in range.) -/
def pyIndexD (lines : List Line) (i : Int) : Line :=
  if i < 0 then lines.getD ((lines.length : Int) + i).toNat degenerateLine
  else lines.getD i.toNat degenerateLine

/-- The `TestKR` constructor (rule 6-4). -/
def testKR (filetype : String) : Test :=
  ⟨1, "", "6-4", "Use K&R block style.", filetype, ["c", "cc", "h"]⟩

/-- Embedding of `TestKR.apply(lines)`: a line whose stripped text starts
(after whitespace) with `{` is reported when the previous line —
`lines[line.number - 2]`, which for line 1 is `lines[-1]`, the last line
of the file — has any non-whitespace character. -/
def applyTestKR (t : Test) (lines : List Line) : List Violation :=
  if t.typeList.contains t.filetype then
    lines.flatMap (fun line =>
      if matchKROpen line.stripped.data &&
          hasNonWs (pyIndexD lines ((line.number : Int) - 2)).stripped.data then
        [mkViolation t line ""]
      else [])
  else []

/-- Matcher for `^//\s+-\*- (?:LSST-C|lsst-c)\+\+ -\*-` (rule 4-1a),
applied to the raw first line. -/
def matchEmacsHeader (s : List Char) : Bool :=
  match s with
  | '/' :: '/' :: rest =>
    decide (1 ≤ (rest.takeWhile isSpacePy).length) &&
      (let u := rest.dropWhile isSpacePy
       ("-*- ".data).isPrefixOf u &&
         (let w := u.drop 4
          (("LSST-C".data).isPrefixOf w || ("lsst-c".data).isPrefixOf w) &&
            ("++ -*-".data).isPrefixOf (w.drop 6)))
  | _ => false

/-- The `TestEmacsHeader` constructor (rule 4-1a). -/
def testEmacsHeader (filetype : String) : Test :=
  ⟨1, "", "4-1a", "use // -*- LSST-C++ -*- as first line", filetype, ["c", "cc", "h"]⟩

/-- Embedding of `TestEmacsHeader.apply(lines)`: the rule reads
`lines[0].raw` unconditionally for applicable file types, so on the empty
line list the source raises `IndexError`, modelled as `none`. -/
def applyTestEmacsHeader (t : Test) (lines : List Line) : Option (List Violation) :=
  if t.typeList.contains t.filetype then
    match lines with
    | [] => none
    | l0 :: _ =>
      some (if ¬ matchEmacsHeader l0.raw.data then [mkViolation t l0 ""] else [])
  else some []

/-! ### The rule catalog of `initializeTestList`

Each constructor below is the `Test.__init__` call of the corresponding
`TestXxx` class, with its literal severity, regex source string, id,
description and applicable type list.  (`TestOneClassFiles` additionally
stores the file name, which is not part of the `Test` base state.) -/

/-- Rule 3-1, `TestUserType`. -/
def testUserType (filetype : String) : Test :=
  ⟨1, "", "3-1", "User defined types must be mixed-case, starting with uppercase.",
   filetype, ["c", "cc", "h"]⟩

/-- Rule 3-2, `TestVariableName`. -/
def testVariableName (filetype : String) : Test :=
  ⟨1, "", "3-2", "Variable names must be mixed-case, starting with lowercase.",
   filetype, ["c", "cc", "h"]⟩

/-- Rule 3-4, `TestFunctionName`. -/
def testFunctionName (filetype : String) : Test :=
  ⟨1, "", "3-4", "Function/Method names must be mixed-case, starting with lowercase.",
   filetype, ["c", "cc", "h"]⟩

/-- Rule 3-5, `TestTypedef`. -/
def testTypedef (filetype : String) : Test :=
  ⟨1, "typedef.*(T|_t|Type|TYPE|type);\\s*$", "3-5",
   "typedef ends in T, _t, Type, etc", filetype, ["c", "cc", "h"]⟩

/-- Rule 3-6, `TestNamespaceLower`. -/
def testNamespaceLower (filetype : String) : Test :=
  ⟨1, "namespace\\s+[a-z]*[A-Z]+[a-z]*\\s*\\\x7b", "3-6",
   "namespace names must be lower case", filetype, ["c", "cc", "h"]⟩

/-- Rule 3-7, `TestTemplateStartsUpper`. -/
def testTemplateStartsUpper (filetype : String) : Test :=
  ⟨1, "", "3-7", "template names must start upper case.", filetype, ["c", "cc", "h"]⟩

/-- Rule 3-8, `TestAllCapAbbreviation`. -/
def testAllCapAbbreviation (filetype : String) : Test :=
  ⟨1, "", "3-8", "Possible all-cap abbreviation.", filetype, ["c", "cc", "h"]⟩

/-- Rule 3-10, `TestLeadingUnderscore`. -/
def testLeadingUnderscore (filetype : String) : Test :=
  ⟨1, "", "3-10", "Private variables must be prefixed with leading underscore.",
   filetype, ["c", "cc", "h"]⟩

/-- Rule 3-14, `TestObjectNameInMethod`. -/
def testObjectNameInMethod (filetype : String) : Test :=
  ⟨1, "", "3-14", "Object name should not appear in a method name.",
   filetype, ["c", "cc", "h"]⟩

/-- Rule 3-24, `TestBooleanIs`. -/
def testBooleanIs (filetype : String) : Test :=
  ⟨1, "", "3-24", "Boolean variables must begin with 'is' or 'has'.",
   filetype, ["c", "cc", "h"]⟩

/-- Rule 3-28, `TestNegativeBoolean`. -/
def testNegativeBoolean (filetype : String) : Test :=
  ⟨1, "", "3-28", "Avoid negative booleans.", filetype, ["c", "cc", "h"]⟩

/-- Rule 4-2, `TestOneClassFiles`. -/
def testOneClassFiles (filetype : String) (_filename : String) : Test :=
  ⟨1, "", "4-2", "Name .h files with one class after that class.", filetype, ["h"]⟩

/-- Rule 4-4a, `TestNonTemplateInH`. -/
def testNonTemplateInH (filetype : String) : Test :=
  ⟨1, "", "4-4a", "Define all non-templated functions in .cc file", filetype, ["h"]⟩

/-- Rule 4-5, `TestInlineProhibited`. -/
def testInlineProhibited (filetype : String) : Test :=
  ⟨1, "", "4-5", "Inline functions prohibited except for get/set.",
   filetype, ["c", "cc", "h"]⟩

/-- Rule 4-6, `TestLength`. -/
def testLength (filetype : String) : Test :=
  ⟨1, "", "4-6", "Line more than 110 characters.", filetype, ["c", "cc", "h", "py"]⟩

/-- Rule 4-7, `TestAvoidSpecialChars`. -/
def testAvoidSpecialChars (filetype : String) : Test :=
  ⟨1, "", "4-7", "Avoid special characters.", filetype, ["c", "cc", "h", "py"]⟩

/-- Rule 4-9, `TestPreventMultipleHeader`. -/
def testPreventMultipleHeader (filetype : String) : Test :=
  ⟨1, "", "4-9", "Prevent multiple header inclusion.", filetype, ["h"]⟩

/-- Rule 4-10, `TestSortGroupIncludes`. -/
def testSortGroupIncludes (filetype : String) : Test :=
  ⟨1, "", "4-10", "Sort and group #include statments.", filetype, ["c", "cc", "h"]⟩

/-- Rule 4-11, `TestIncludesFirst`. -/
def testIncludesFirst (filetype : String) : Test :=
  ⟨1, "", "4-11", "#includes should preceed all other statments.",
   filetype, ["c", "cc", "h"]⟩

/-- Rule 4-13, `TestUsingInHeader`. -/
def testUsingInHeader (filetype : String) : Test :=
  ⟨1, "^\\s*using", "4-13", "'using' declaration appears in header file",
   filetype, ["h"]⟩

/-- Rule 4-15, `TestAngleBracketInclude`. -/
def testAngleBracketInclude (filetype : String) : Test :=
  ⟨1, "^\\#include\\s*\\<.*\\/.*\\>\\s*$", "4-15",
   "Use '#include<>' style for system libraries only.", filetype, ["c", "cc", "h"]⟩

/-- Rule 5-2, `TestPubProPriv`. -/
def testPubProPriv (filetype : String) : Test :=
  ⟨1, "", "5-2", "Class declaration order public/protected/private:",
   filetype, ["c", "cc", "h"]⟩

/-- Rule 5-3, `TestCCast`; its regex is assembled from `getPrimitivesOr`. -/
def testCCast (filetype : String) : Test :=
  ⟨1, "\\((" ++ getPrimitivesOr ++ ")\\s*[\\*]?\\s*\\)\\s*[\\w\\d]+", "5-3",
   "C-style cast.", filetype, ["c", "cc", "h"]⟩

/-- Rule 5-8, `TestPublicConstStatic`. -/
def testPublicConstStatic (filetype : String) : Test :=
  ⟨1, "", "5-8", "Public variables must const or static.", filetype, ["c", "cc", "h"]⟩

/-- Rule 5-10, `TestConstAfterType`. -/
def testConstAfterType (filetype : String) : Test :=
  ⟨1, "", "5-10", "Put 'const' after type in declarations.", filetype, ["c", "cc", "h"]⟩

/-- Rule 5-14, `TestForLoopControl`. -/
def testForLoopControl (filetype : String) : Test :=
  ⟨1, "", "5-14", "Put only loop control in parentheses of for() statement",
   filetype, ["c", "cc", "h"]⟩

/-- Rule 5-16, `TestDoWhile`. -/
def testDoWhile (filetype : String) : Test :=
  ⟨1, "^\\s*do\\s*\\\x7b", "5-16", "Avoid 'do-while' loops", filetype, ["c", "cc", "h"]⟩

/-- Rule 5-17, `TestBreakContinue`. -/
def testBreakContinue (filetype : String) : Test :=
  ⟨1, "", "5-17", "Avoid using 'break' and 'continue'.", filetype, ["c", "cc", "h"]⟩

/-- Rule 5-21, `TestNoOneLinerIf`. -/
def testNoOneLinerIf (filetype : String) : Test :=
  ⟨1, "^\\s*if\\s*\\([^\\)]+\\)\\s*\\\x7b[^\\\x7d]+\\\x7d", "5-21",
   "Put conditional statements on separate line.", filetype, ["c", "cc", "h"]⟩

/-- Rule 5-22, `TestExecutibleConditional`. -/
def testExecutibleConditional (filetype : String) : Test :=
  ⟨1, "^\\s*(if|while)\\s*\\([^\\)]+[^\\=\\!\\>\\<]\\=[^\\=][^\\)]+\\)", "5-22",
   "No executible (assignments) in conditional statments.", filetype, ["c", "cc", "h"]⟩

/-- Rule 5-24, `TestConstRefForNonPrimitives`. -/
def testConstRefForNonPrimitives (filetype : String) : Test :=
  ⟨1, "", "5-24", "Pass non-primitives as 'const &'.", filetype, ["c", "cc", "h"]⟩

/-- Rule 5-27, `TestOneArgConstructors`. -/
def testOneArgConstructors (filetype : String) : Test :=
  ⟨1, "", "5-27", "One-argument constructors must be declared explicit.",
   filetype, ["c", "cc", "h"]⟩

/-- Rule 5-28, `TestDestructorExceptions`. -/
def testDestructorExceptions (filetype : String) : Test :=
  ⟨1, "", "5-28", "Do not throw exceptions in a destructor.", filetype, ["c", "cc", "h"]⟩

/-- Rule 5-29, `TestVirtualDestructor`. -/
def testVirtualDestructor (filetype : String) : Test :=
  ⟨1, "", "5-29", "Polym. base class destructors should be virtual",
   filetype, ["c", "cc", "h"]⟩

/-- Rule 5-31, `TestShowOneDecimal`. -/
def testShowOneDecimal (filetype : String) : Test :=
  ⟨1, "\\d+\\.[\\s\\*\\+\\-\\/\\=\\;\\)]", "5-31",
   "Show one decimal point for float/double.", filetype, ["c", "cc", "h", "py"]⟩

/-- Rule 5-32, `TestShowDigitBefore`. -/
def testShowDigitBefore (filetype : String) : Test :=
  ⟨1, "[^\\d]\\.\\d+", "5-32", "Show one digit before the decimal for float/double.",
   filetype, ["c", "cc", "h", "py"]⟩

/-- Rule 5-33, `TestNoGoto`. -/
def testNoGoto (filetype : String) : Test :=
  ⟨1, "\\s*goto\\s", "5-33", "Do not use 'goto'.", filetype, ["c", "cc", "h"]⟩

/-- Rule 5-39, `TestCharStar`. -/
def testCharStar (filetype : String) : Test :=
  ⟨1, "", "5-39", "Use std::string instead of char*.", filetype, ["c", "cc", "h"]⟩

/-- Rule 5-40, `TestCArray`. -/
def testCArray (filetype : String) : Test :=
  ⟨1, "", "5-40", "use std::vector<> instead of x[]", filetype, ["c", "cc", "h"]⟩

/-- Rule 5-41, `TestUsingOnlyStd`. -/
def testUsingOnlyStd (filetype : String) : Test :=
  ⟨1, "", "5-41", "'using' only for namespace std", filetype, ["c", "cc", "h"]⟩

/-- Rule 6-1, `TestMultipleStatement`. -/
def testMultipleStatement (filetype : String) : Test :=
  ⟨1, ";.*;\\s*$", "6-1", "Only one statement per line.", filetype, ["c", "cc", "h"]⟩

/-- Rule 6-2, `TestFourSpaceIndent`. -/
def testFourSpaceIndent (filetype : String) : Test :=
  ⟨1, "", "6-2", "Use 4-space indentation", filetype, ["c", "cc", "h"]⟩

/-- Rule 6-5, `TestClassBlocksLeft`. -/
def testClassBlocksLeft (filetype : String) : Test :=
  ⟨1, "", "6-5", "class/public/protected/private should be left justified.",
   filetype, ["c", "cc", "h"]⟩

/-- Rule 6-9, `TestEmptyLoopOneLine`. -/
def testEmptyLoopOneLine (filetype : String) : Test :=
  ⟨1, "", "6-9", "Empty loops should be on one line.", filetype, ["c", "cc", "h"]⟩

/-- Rule 6-14, `TestBracketsMissing`. -/
def testBracketsMissing (filetype : String) : Test :=
  ⟨1, "^\\s*(if|for|while)\\s*\\([^\\)]+\\)\\s*$", "6-14",
   "Brackets may be omitted only for one line statements.", filetype, ["c", "cc", "h"]⟩

/-- Rule 6-16a, `TestOperatorSpacing`. -/
def testOperatorSpacing (filetype : String) : Test :=
  ⟨1, "", "6-16a", "Operator spacing: ", filetype, ["c", "cc", "h", "py"]⟩

/-- Rule 6-16b, `TestCommaSpace`. -/
def testCommaSpace (filetype : String) : Test :=
  ⟨1, "", "6-16b", "Missing whitespace.", filetype, ["c", "cc", "h", "py"]⟩

/-- Rule 6-21b, `TestNestedNamespacesLeft`. -/
def testNestedNamespacesLeft (filetype : String) : Test :=
  ⟨1, "", "6-21b", "Left-align nested namespaces.", filetype, ["c", "cc", "h"]⟩

/-- Embedding of `initializeTestList(filetype, infile)`: the fifty test
instances appended there, in append order. -/
def testListInit (filetype : String) (infile : String) : List Test :=
  [testUserType filetype,
   testVariableName filetype,
   testFunctionName filetype,
   testTypedef filetype,
   testNamespaceLower filetype,
   testTemplateStartsUpper filetype,
   testAllCapAbbreviation filetype,
   testLeadingUnderscore filetype,
   testObjectNameInMethod filetype,
   testBooleanIs filetype,
   testNegativeBoolean filetype,
   testEmacsHeader filetype,
   testOneClassFiles filetype infile,
   testNonTemplateInH filetype,
   testInlineProhibited filetype,
   testLength filetype,
   testAvoidSpecialChars filetype,
   testPreventMultipleHeader filetype,
   testSortGroupIncludes filetype,
   testIncludesFirst filetype,
   testUsingInHeader filetype,
   testAngleBracketInclude filetype,
   testPubProPriv filetype,
   testCCast filetype,
   testPublicConstStatic filetype,
   testConstAfterType filetype,
   testForLoopControl filetype,
   testDoWhile filetype,
   testBreakContinue filetype,
   testNoOneLinerIf filetype,
   testExecutibleConditional filetype,
   testConstRefForNonPrimitives filetype,
   testOneArgConstructors filetype,
   testDestructorExceptions filetype,
   testVirtualDestructor filetype,
   testShowOneDecimal filetype,
   testShowDigitBefore filetype,
   testNoGoto filetype,
   testCharStar filetype,
   testCArray filetype,
   testUsingOnlyStd filetype,
   testMultipleStatement filetype,
   testFourSpaceIndent filetype,
   testKR filetype,
   testClassBlocksLeft filetype,
   testEmptyLoopOneLine filetype,
   testBracketsMissing filetype,
   testOperatorSpacing filetype,
   testCommaSpace filetype,
   testNestedNamespacesLeft filetype]

/-! ### The aggregation pipeline of `main`

The rules are run first (`violationList`); the tail of `main` then sorts
by line number with Python's stable `sorted`, drops inline-suppressed
violations, and prints those that are neither in the ignore map nor above
the severity cutoff.  The pipeline below is that tail as a function of
the accumulated violation list. -/

/-- Stable insertion: `v` goes after every earlier violation with a
strictly smaller line number and before the first with an equal or larger
one, so equal-keyed violations keep their relative order. -/
def sortedInsert (v : Violation) : List Violation → List Violation
  | [] => [v]
  | w :: ws =>
    if w.lineNumber < v.lineNumber then w :: sortedInsert v ws
    else v :: w :: ws

/-- Model of `sorted(violationList, key = lambda x: x.getLineNumber())`:
Python's `sorted` is the stable sort by the key, which insertion sort
with strict comparison computes. -/
def sortByLineNumber : List Violation → List Violation
  | [] => []
  | v :: vs => sortedInsert v (sortByLineNumber vs)

/-- The suppression tag compared against `line.suppress`:
`"LsstDm-" + violation.getId()`. -/
def suppressTag (v : Violation) : String := "LsstDm-" ++ v.test.id

/-- The `parasoftSuppress` test of `main`. -/
def isSuppressed (v : Violation) : Bool := v.line.suppress.contains (suppressTag v)

/-- The `violationFinal` list of `main`: the sorted violations without
the inline-suppressed ones. -/
def violationFinal (vlist : List Violation) : List Violation :=
  (sortByLineNumber vlist).filter (fun v => !(isSuppressed v))

/-- The ignore map loaded from the `.ignore-style` file: file path →
rule id → line-number strings. -/
abbrev IgnoreMap : Type := List (String × List (String × List String))

/-- Lookup of `ignore[infile][rule]`. -/
def ignoreLookup (ign : IgnoreMap) (file rule : String) : Option (List String) :=
  match ign.find? (fun p => p.1 = file) with
  | some p => (p.2.find? (fun q => q.1 = rule)).map (fun q => q.2)
  | none => none

/-- The `doIgnore` test of `main`: the violation's
`(infile, rule, str(lineNumber))` triple is in the ignore map. -/
def doIgnore (ign : IgnoreMap) (infile : String) (v : Violation) : Bool :=
  match ignoreLookup ign infile v.test.id with
  | some lns => lns.contains (toString v.lineNumber)
  | none => false

/-- The printed violations of `main`: from `violationFinal`, those not
ignored and with severity at most the cutoff (`opts.severity`). -/
def finalViolations (vlist : List Violation) (ign : IgnoreMap) (infile : String)
    (cutoff : Int) : List Violation :=
  (violationFinal vlist).filter
    (fun v => !(doIgnore ign infile v) && decide (v.getSeverity ≤ cutoff))

/-- The `optparse` default of the `--severity` option. -/
def defaultSeverity : Int := 5

/-! ### The ignore-file loader of `main` -/

/-- The Python exceptions the ignore-file loop can raise: `ValueError`
from unpacking a `split()` whose length is not 3, and `TypeError` from
the subscript in `ignore[igFile].has_key[igRule]` (a subscripted bound
method), which is evaluated whenever `igFile` is already a key. -/
inductive PyError where
  | valueError : PyError
  | typeError : PyError
deriving Repr, DecidableEq

/-- One line of the ignore-file loop: strip `#` comments, skip blank
lines, unpack the whitespace-split triple (raising `ValueError`
otherwise), and extend the map — where any second line whose file is
already present evaluates `ignore[igFile].has_key[igRule]` and raises
`TypeError`. -/
def loadIgnoreStep (ign : IgnoreMap) (rawLine : String) : Except PyError IgnoreMap :=
  let l := rawLine.data.takeWhile (fun c => c ≠ '#')
  if l.all isSpacePy then .ok ign
  else
    match splitWs l with
    | [f, r, n] =>
      if (ign.find? (fun p => p.1 = String.mk f)).isSome then
        .error .typeError
      else .ok (ign ++ [(String.mk f, [(String.mk r, [String.mk n])])])
    | _ => .error .valueError

/-- Embedding of the ignore-file loading loop of `main` over the file's
lines. -/
def loadIgnore (ls : List String) : Except PyError IgnoreMap :=
  ls.foldlM loadIgnoreStep ([] : IgnoreMap)

/-! ### Proof-support definitions -/

deriving instance DecidableEq for Except

/-- `stepFlags` with the six regex tests abstracted into booleans (class
match, struct match, the three access matches, the `};` match); the
definition is the same conditional chain, so `stepFlags f s` is this
function applied to the six matchers of `s`. -/
def stepFlagsB (f : CtxFlags) (clsM strM pubM protM privM cloM : Bool) : CtxFlags :=
  let f := if clsM then
      { f with inNestedClass := f.inNestedClass || (f.inClass || f.inStruct),
               inClass := true, inStruct := false,
               inPublic := false, inProtected := false, inPrivate := false }
    else f
  let f := if strM then
      { f with inNestedStruct := f.inNestedStruct || (f.inClass || f.inStruct),
               inClass := false, inStruct := true,
               inPublic := false, inProtected := false, inPrivate := false }
    else f
  let justInClassStruct := (f.inClass || f.inStruct) && !(f.inNestedClass || f.inNestedStruct)
  let f := if justInClassStruct && pubM then
      { f with inPublic := true, inProtected := false, inPrivate := false }
    else f
  let f := if justInClassStruct && protM then
      { f with inPublic := false, inProtected := true, inPrivate := false }
    else f
  let f := if justInClassStruct && privM then
      { f with inPublic := false, inProtected := false, inPrivate := true }
    else f
  let f := if justInClassStruct && cloM then
      { f with inClass := false, inStruct := false,
               inPublic := false, inProtected := false, inPrivate := false }
    else f
  let f := if f.inNestedClass && cloM then { f with inNestedClass := false } else f
  let f := if f.inNestedStruct && cloM then { f with inNestedStruct := false } else f
  f

/-- The fold of the `flagLines` state over a prefix of the line list. -/
def foldState (st : FlagState) : List Line → FlagState
  | [] => st
  | l :: ls => foldState (flagStep st l).1 ls

/-- How many of the three access flags are set. -/
def accessCount (c : CtxFlags) : Nat :=
  (if c.inPublic then 1 else 0) + (if c.inProtected then 1 else 0) +
    (if c.inPrivate then 1 else 0)

/-- Flags of a line directly inside a non-nested class/struct body. -/
def directlyInside (c : CtxFlags) : Bool :=
  (c.inClass || c.inStruct) && !(c.inNestedClass || c.inNestedStruct)

/-- An access-specifier line: one of the three `^\s*ACCESS:` patterns
matches. -/
def isAccessLine (s : List Char) : Bool :=
  accessHead kwPublic s || accessHead kwProtected s || accessHead kwPrivate s

/-- A class/struct opening line: one of the two type-declaration patterns
matches. -/
def isTypeOpenLine (s : List Char) : Bool :=
  (classHead kwClass s).isSome || (classHead kwStruct s).isSome

/-- The context-flag invariant maintained by the flagging scan: at most
one access flag is set, and an access flag is only set inside a
class/struct. -/
def ctxInv (c : CtxFlags) : Bool :=
  decide (accessCount c ≤ 1) &&
    ((c.inPublic || c.inProtected || c.inPrivate) → (c.inClass || c.inStruct))

/-- Per-character brace count of a line, as claim C2 reads the spec: the
number of `{` characters minus the number of `}` characters.  This
definition follows the claim's words, for comparison with the source's
per-line `braceDelta`. -/
def braceCharDelta (s : List Char) : Int :=
  ((s.filter (fun c => c = '\x7b')).length : Int) -
    ((s.filter (fun c => c = '\x7d')).length : Int)

/-! ### Concrete inputs used by the witnesses and counterexamples -/

/-- A nested-class scenario: an outer class with a `public:` section, a
nested class that opens and closes, and a member line after it. -/
def nestedClassDemo : List Line :=
  parseLines ["class Outer \x7b", "public:", "class Inner \x7b",
              "\x7d;", "int x;", "\x7d;"] "h"

/-- A plain class with an access specifier and a member. -/
def plainClassDemo : List Line :=
  parseLines ["class A \x7b", "public:", "int x;", "\x7d;"] "h"

/-- A two-line file whose first line opens a brace (for the K&R
look-back) and whose last line is non-blank. -/
def krDemo : List Line := parseLines ["\x7b", "int x;"] "cc"

/-- A one-line definition opened by `{` with no closing `}` anywhere. -/
def unclosedDemo : List Line := parseLines ["inline int f() \x7b"] "h"

/-- A line stamped `{{`: two opening braces on one line. -/
def doubleBraceDemo : List Line := parseLines ["\x7b\x7b"] "cc"

/-- A violation on a line carrying an inline suppression for rule 4-6. -/
def suppressedDemo : Violation :=
  mkViolation (testLength "cc")
    ((parseLines ["int x; // parasoft-suppress LsstDm-4-6"] "cc").getD 0 degenerateLine) ""

/-! ## Structural lemmas about the flagging scan -/

/-- `stepFlags` is `stepFlagsB` applied to the six matchers of the
line. -/
theorem stepFlags_eq_stepFlagsB (f : CtxFlags) (s : List Char) :
    stepFlags f s =
      stepFlagsB f ((classHead kwClass s).isSome) ((classHead kwStruct s).isSome)
        (accessHead kwPublic s) (accessHead kwProtected s) (accessHead kwPrivate s)
        (matchCloseBrace s) := rfl

/-- The state returned by `flagStep` carries the stepped flags. -/
theorem flagStep_fst_ctx (st : FlagState) (l : Line) :
    (flagStep st l).1.ctx = stepFlags st.ctx l.stripped.data := rfl

/-- The stamped line carries the stepped flags. -/
theorem flagStep_snd_ctx (st : FlagState) (l : Line) :
    (flagStep st l).2.ctx = stepFlags st.ctx l.stripped.data := rfl

/-- The state returned by `flagStep` carries the updated depth. -/
theorem flagStep_fst_nNested (st : FlagState) (l : Line) :
    (flagStep st l).1.nNested = st.nNested + braceDelta l.stripped.data := rfl

/-- The stamped line carries the updated depth. -/
theorem flagStep_snd_nNested (st : FlagState) (l : Line) :
    (flagStep st l).2.nNested = st.nNested + braceDelta l.stripped.data := rfl

/-- Stamping does not change the stripped text. -/
theorem flagStep_snd_stripped (st : FlagState) (l : Line) :
    (flagStep st l).2.stripped = l.stripped := rfl

/-- Stamping does not change the line number. -/
theorem flagStep_snd_number (st : FlagState) (l : Line) :
    (flagStep st l).2.number = l.number := rfl

/-- Stamping does not change the raw text. -/
theorem flagStep_snd_raw (st : FlagState) (l : Line) :
    (flagStep st l).2.raw = l.raw := rfl

/-- Stamping does not change the suppression tokens. -/
theorem flagStep_snd_suppress (st : FlagState) (l : Line) :
    (flagStep st l).2.suppress = l.suppress := rfl

/-- The flagging loop preserves the number of lines. -/
theorem flagLinesGo_length (st : FlagState) (ls : List Line) :
    (flagLinesGo st ls).length = ls.length := by
  induction ls generalizing st with
  | nil => rfl
  | cons l ls ih => simp [flagLinesGo, ih]

/-- The state fold over a prefix extended by one line. -/
theorem foldState_take_succ (ls : List Line) (st : FlagState) (i : Nat)
    (h : i < ls.length) :
    foldState st (ls.take (i + 1)) =
      (flagStep (foldState st (ls.take i)) (ls.getD i degenerateLine)).1 := by
  induction ls generalizing st i with
  | nil => simp at h
  | cons l ls ih =>
    cases i with
    | zero => simp [foldState]
    | succ i =>
      simp only [List.take_succ_cons, foldState, List.getD_cons_succ]
      exact ih (flagStep st l).1 i (by simpa using h)

/-- The `i`-th stamped line is `flagStep` of the state folded over the
first `i` lines, applied to the `i`-th input line. -/
theorem flagLinesGo_getD (ls : List Line) (st : FlagState) (i : Nat)
    (h : i < ls.length) :
    (flagLinesGo st ls).getD i degenerateLine =
      (flagStep (foldState st (ls.take i)) (ls.getD i degenerateLine)).2 := by
  induction ls generalizing st i with
  | nil => simp at h
  | cons l ls ih =>
    cases i with
    | zero => simp [flagLinesGo, foldState]
    | succ i =>
      simp only [flagLinesGo, List.getD_cons_succ, List.take_succ_cons, foldState]
      exact ih (flagStep st l).1 i (by simpa using h)

/-- Flag recurrence between consecutive stamped lines. -/
theorem flagLines_ctx_succ (lines : List Line) (i : Nat) (h : i + 1 < lines.length) :
    ((flagLines lines).getD (i + 1) degenerateLine).ctx =
      stepFlags ((flagLines lines).getD i degenerateLine).ctx
        ((lines.getD (i + 1) degenerateLine).stripped.data) := by
  unfold flagLines
  rw [flagLinesGo_getD lines initFlagState (i + 1) h,
      flagLinesGo_getD lines initFlagState i (Nat.lt_of_succ_lt h),
      flagStep_snd_ctx, flagStep_snd_ctx,
      foldState_take_succ lines initFlagState i (Nat.lt_of_succ_lt h),
      flagStep_fst_ctx]

/-- Flags of the first stamped line. -/
theorem flagLines_ctx_zero (lines : List Line) (h : 0 < lines.length) :
    ((flagLines lines).getD 0 degenerateLine).ctx =
      stepFlags initCtx ((lines.getD 0 degenerateLine).stripped.data) := by
  unfold flagLines
  rw [flagLinesGo_getD lines initFlagState 0 h, flagStep_snd_ctx]
  rfl

/-- Depth recurrence between consecutive stamped lines. -/
theorem flagLines_nNested_succ (lines : List Line) (i : Nat) (h : i + 1 < lines.length) :
    ((flagLines lines).getD (i + 1) degenerateLine).nNested =
      ((flagLines lines).getD i degenerateLine).nNested +
        braceDelta ((lines.getD (i + 1) degenerateLine).stripped.data) := by
  unfold flagLines
  rw [flagLinesGo_getD lines initFlagState (i + 1) h,
      flagLinesGo_getD lines initFlagState i (Nat.lt_of_succ_lt h),
      flagStep_snd_nNested, flagStep_snd_nNested,
      foldState_take_succ lines initFlagState i (Nat.lt_of_succ_lt h),
      flagStep_fst_nNested]

/-- Depth of the first stamped line. -/
theorem flagLines_nNested_zero (lines : List Line) (h : 0 < lines.length) :
    ((flagLines lines).getD 0 degenerateLine).nNested =
      braceDelta ((lines.getD 0 degenerateLine).stripped.data) := by
  unfold flagLines
  rw [flagLinesGo_getD lines initFlagState 0 h, flagStep_snd_nNested]
  simp [foldState, initFlagState]

/-- Stamping preserves the stripped text at every index. -/
theorem flagLines_stripped (lines : List Line) (i : Nat) (h : i < lines.length) :
    ((flagLines lines).getD i degenerateLine).stripped =
      (lines.getD i degenerateLine).stripped := by
  unfold flagLines
  rw [flagLinesGo_getD lines initFlagState i h, flagStep_snd_stripped]

/-- Stamping preserves the line number at every index. -/
theorem flagLines_number (lines : List Line) (i : Nat) (h : i < lines.length) :
    ((flagLines lines).getD i degenerateLine).number =
      (lines.getD i degenerateLine).number := by
  unfold flagLines
  rw [flagLinesGo_getD lines initFlagState i h, flagStep_snd_number]

/-- Stamping preserves the raw text at every index. -/
theorem flagLines_raw (lines : List Line) (i : Nat) (h : i < lines.length) :
    ((flagLines lines).getD i degenerateLine).raw =
      (lines.getD i degenerateLine).raw := by
  unfold flagLines
  rw [flagLinesGo_getD lines initFlagState i h, flagStep_snd_raw]

/-! ## Disjointness of the `flagLines` matchers

No stripped line can simultaneously look like two of: a class opening, a
struct opening, one of the three access specifiers, a top-level `};` —
their leading literals are pairwise incomparable. -/

/-- Two incomparable literals cannot both be prefixes of one list. -/
theorem not_both_prefixes {u v t : List Char} (hu : u.isPrefixOf t)
    (hv : v.isPrefixOf t) (h1 : u.isPrefixOf v = false)
    (h2 : v.isPrefixOf u = false) : False := by
  rw [List.isPrefixOf_iff_prefix] at hu hv
  rcases List.prefix_or_prefix_of_prefix hu hv with h | h
  · rw [← List.isPrefixOf_iff_prefix] at h
    simp [h] at h1
  · rw [← List.isPrefixOf_iff_prefix] at h
    simp [h] at h2

/-- A matched class/struct head starts with its keyword after the leading
whitespace. -/
theorem classHead_pref {kw s : List Char} (hc : (classHead kw s).isSome) :
    kw.isPrefixOf (s.dropWhile isSpacePy) := by
  by_cases h : kw.isPrefixOf (s.dropWhile isSpacePy)
  · exact h
  · simp [classHead, h] at hc

/-- A `};` line has no leading whitespace to drop. -/
theorem close_dropWhile {s : List Char} (h : matchCloseBrace s) :
    s.dropWhile isSpacePy = s := by
  unfold matchCloseBrace at h
  cases s with
  | nil => simp [List.isPrefixOf] at h
  | cons c cs =>
    simp only [List.isPrefixOf, Bool.and_eq_true, beq_iff_eq] at h
    rw [List.dropWhile_cons, ← h.1]
    simp [isSpacePy]

/-- What a `public:` line cannot simultaneously be. -/
theorem pub_excl {s : List Char} (h : accessHead kwPublic s) :
    accessHead kwProtected s = false ∧ accessHead kwPrivate s = false ∧
      (classHead kwClass s).isSome = false ∧ (classHead kwStruct s).isSome = false ∧
      matchCloseBrace s = false := by
  unfold accessHead at h
  refine ⟨?_, ?_, ?_, ?_, ?_⟩
  · by_cases h2 : accessHead kwProtected s
    · exact (not_both_prefixes h h2 (by decide) (by decide)).elim
    · simpa using h2
  · by_cases h2 : accessHead kwPrivate s
    · exact (not_both_prefixes h h2 (by decide) (by decide)).elim
    · simpa using h2
  · by_cases h2 : (classHead kwClass s).isSome
    · exact (not_both_prefixes h (classHead_pref h2) (by decide) (by decide)).elim
    · simpa using h2
  · by_cases h2 : (classHead kwStruct s).isSome
    · exact (not_both_prefixes h (classHead_pref h2) (by decide) (by decide)).elim
    · simpa using h2
  · by_cases h2 : matchCloseBrace s
    · rw [close_dropWhile h2] at h
      unfold matchCloseBrace at h2
      exact (not_both_prefixes h h2 (by decide) (by decide)).elim
    · simpa using h2

/-- What a `protected:` line cannot simultaneously be. -/
theorem prot_excl {s : List Char} (h : accessHead kwProtected s) :
    accessHead kwPrivate s = false ∧
      (classHead kwClass s).isSome = false ∧ (classHead kwStruct s).isSome = false ∧
      matchCloseBrace s = false := by
  unfold accessHead at h
  refine ⟨?_, ?_, ?_, ?_⟩
  · by_cases h2 : accessHead kwPrivate s
    · exact (not_both_prefixes h h2 (by decide) (by decide)).elim
    · simpa using h2
  · by_cases h2 : (classHead kwClass s).isSome
    · exact (not_both_prefixes h (classHead_pref h2) (by decide) (by decide)).elim
    · simpa using h2
  · by_cases h2 : (classHead kwStruct s).isSome
    · exact (not_both_prefixes h (classHead_pref h2) (by decide) (by decide)).elim
    · simpa using h2
  · by_cases h2 : matchCloseBrace s
    · rw [close_dropWhile h2] at h
      unfold matchCloseBrace at h2
      exact (not_both_prefixes h h2 (by decide) (by decide)).elim
    · simpa using h2

/-- What a `private:` line cannot simultaneously be. -/
theorem priv_excl {s : List Char} (h : accessHead kwPrivate s) :
    (classHead kwClass s).isSome = false ∧ (classHead kwStruct s).isSome = false ∧
      matchCloseBrace s = false := by
  unfold accessHead at h
  refine ⟨?_, ?_, ?_⟩
  · by_cases h2 : (classHead kwClass s).isSome
    · exact (not_both_prefixes h (classHead_pref h2) (by decide) (by decide)).elim
    · simpa using h2
  · by_cases h2 : (classHead kwStruct s).isSome
    · exact (not_both_prefixes h (classHead_pref h2) (by decide) (by decide)).elim
    · simpa using h2
  · by_cases h2 : matchCloseBrace s
    · rw [close_dropWhile h2] at h
      unfold matchCloseBrace at h2
      exact (not_both_prefixes h h2 (by decide) (by decide)).elim
    · simpa using h2

/-- What a class-opening line cannot simultaneously be. -/
theorem cls_excl {s : List Char} (h : (classHead kwClass s).isSome) :
    (classHead kwStruct s).isSome = false ∧ matchCloseBrace s = false := by
  refine ⟨?_, ?_⟩
  · by_cases h2 : (classHead kwStruct s).isSome
    · exact (not_both_prefixes (classHead_pref h) (classHead_pref h2)
        (by decide) (by decide)).elim
    · simpa using h2
  · by_cases h2 : matchCloseBrace s
    · have hp := classHead_pref h
      rw [close_dropWhile h2] at hp
      unfold matchCloseBrace at h2
      exact (not_both_prefixes hp h2 (by decide) (by decide)).elim
    · simpa using h2

/-- What a struct-opening line cannot simultaneously be. -/
theorem str_excl {s : List Char} (h : (classHead kwStruct s).isSome) :
    matchCloseBrace s = false := by
  by_cases h2 : matchCloseBrace s
  · have hp := classHead_pref h
    rw [close_dropWhile h2] at hp
    unfold matchCloseBrace at h2
    exact (not_both_prefixes hp h2 (by decide) (by decide)).elim
  · simpa using h2

/-! ## Finite-case lemmas about one flag step

`stepFlagsB` takes the seven flags and the six matcher booleans, so each
per-step property is a decidable statement over thirteen booleans; the
disjointness facts above supply the hypotheses about impossible matcher
combinations. -/

/-- One step preserves the context-flag invariant. -/
theorem stepFlagsB_inv :
    ∀ (b1 b2 b3 b4 b5 b6 b7 m1 m2 m3 m4 m5 m6 : Bool),
    ctxInv ⟨b1, b2, b3, b4, b5, b6, b7⟩ = true →
      ctxInv (stepFlagsB ⟨b1, b2, b3, b4, b5, b6, b7⟩ m1 m2 m3 m4 m5 m6) = true := by
  decide

/-- On an access-specifier line whose stamped flags are directly inside a
non-nested body, exactly one access flag comes out set. -/
theorem stepFlagsB_access_one :
    ∀ (b1 b2 b3 b4 b5 b6 b7 m1 m2 m3 m4 m5 m6 : Bool),
    (m3 || m4 || m5) = true →
      (!m3 || (!m4 && !m5 && !m1 && !m2 && !m6)) = true →
      (!m4 || (!m5 && !m1 && !m2 && !m6)) = true →
      (!m5 || (!m1 && !m2 && !m6)) = true →
      directlyInside (stepFlagsB ⟨b1, b2, b3, b4, b5, b6, b7⟩ m1 m2 m3 m4 m5 m6) = true →
      accessCount (stepFlagsB ⟨b1, b2, b3, b4, b5, b6, b7⟩ m1 m2 m3 m4 m5 m6) = 1 := by
  decide

/-- A step that starts with exactly one access flag, directly inside, and
lands directly inside again keeps exactly one access flag set. -/
theorem stepFlagsB_keep_one :
    ∀ (b1 b2 b3 b4 b5 b6 b7 m1 m2 m3 m4 m5 m6 : Bool),
    (!m1 || (!m2 && !m6)) = true →
      (!m2 || !m6) = true →
      (!m3 || (!m4 && !m5 && !m1 && !m2 && !m6)) = true →
      (!m4 || (!m5 && !m1 && !m2 && !m6)) = true →
      (!m5 || (!m1 && !m2 && !m6)) = true →
      accessCount ⟨b1, b2, b3, b4, b5, b6, b7⟩ = 1 →
      directlyInside (⟨b1, b2, b3, b4, b5, b6, b7⟩ : CtxFlags) = true →
      directlyInside (stepFlagsB ⟨b1, b2, b3, b4, b5, b6, b7⟩ m1 m2 m3 m4 m5 m6) = true →
      accessCount (stepFlagsB ⟨b1, b2, b3, b4, b5, b6, b7⟩ m1 m2 m3 m4 m5 m6) = 1 := by
  decide

/-- A non-access line keeps the access-flag count at zero. -/
theorem stepFlagsB_keep_zero :
    ∀ (b1 b2 b3 b4 b5 b6 b7 m1 m2 m3 m4 m5 m6 : Bool),
    m3 = false → m4 = false → m5 = false →
      accessCount ⟨b1, b2, b3, b4, b5, b6, b7⟩ = 0 →
      accessCount (stepFlagsB ⟨b1, b2, b3, b4, b5, b6, b7⟩ m1 m2 m3 m4 m5 m6) = 0 := by
  decide

/-- A class/struct-opening line resets the access flags to none. -/
theorem stepFlagsB_typeopen_zero :
    ∀ (b1 b2 b3 b4 b5 b6 b7 m1 m2 m3 m4 m5 m6 : Bool),
    (m1 || m2) = true →
      (!m1 || (!m3 && !m4 && !m5)) = true →
      (!m2 || (!m3 && !m4 && !m5)) = true →
      accessCount (stepFlagsB ⟨b1, b2, b3, b4, b5, b6, b7⟩ m1 m2 m3 m4 m5 m6) = 0 := by
  decide

/-! ## One-step lemmas on actual lines -/

/-- Exclusion hypothesis for a possible `public:` match, in boolean
form. -/
theorem pub_hyp (s : List Char) :
    (!(accessHead kwPublic s) ||
      (!(accessHead kwProtected s) && !(accessHead kwPrivate s) &&
        !((classHead kwClass s).isSome) && !((classHead kwStruct s).isSome) &&
        !(matchCloseBrace s))) = true := by
  cases hpub : accessHead kwPublic s
  · simp
  · obtain ⟨e1, e2, e3, e4, e5⟩ := pub_excl hpub
    simp [e1, e2, e3, e4, e5]

/-- Exclusion hypothesis for a possible `protected:` match, in boolean
form. -/
theorem prot_hyp (s : List Char) :
    (!(accessHead kwProtected s) ||
      (!(accessHead kwPrivate s) && !((classHead kwClass s).isSome) &&
        !((classHead kwStruct s).isSome) && !(matchCloseBrace s))) = true := by
  cases hprot : accessHead kwProtected s
  · simp
  · obtain ⟨e1, e2, e3, e4⟩ := prot_excl hprot
    simp [e1, e2, e3, e4]

/-- Exclusion hypothesis for a possible `private:` match, in boolean
form. -/
theorem priv_hyp (s : List Char) :
    (!(accessHead kwPrivate s) ||
      (!((classHead kwClass s).isSome) && !((classHead kwStruct s).isSome) &&
        !(matchCloseBrace s))) = true := by
  cases hpriv : accessHead kwPrivate s
  · simp
  · obtain ⟨e1, e2, e3⟩ := priv_excl hpriv
    simp [e1, e2, e3]

/-- Exclusion hypothesis for a possible class-opening match, in boolean
form. -/
theorem cls_hyp (s : List Char) :
    (!((classHead kwClass s).isSome) ||
      (!((classHead kwStruct s).isSome) && !(matchCloseBrace s))) = true := by
  cases hcls : (classHead kwClass s).isSome
  · simp
  · obtain ⟨e1, e2⟩ := cls_excl hcls
    simp [e1, e2]

/-- Exclusion hypothesis for a possible struct-opening match, in boolean
form. -/
theorem str_hyp (s : List Char) :
    (!((classHead kwStruct s).isSome) || !(matchCloseBrace s)) = true := by
  cases hstr : (classHead kwStruct s).isSome
  · simp
  · simp [str_excl hstr]

/-- An access-specifier line whose stamped flags are directly inside sets
exactly one access flag. -/
theorem stepFlags_access_one (c : CtxFlags) (s : List Char)
    (ha : isAccessLine s = true)
    (hd : directlyInside (stepFlags c s) = true) :
    accessCount (stepFlags c s) = 1 := by
  rw [stepFlags_eq_stepFlagsB] at hd ⊢
  obtain ⟨b1, b2, b3, b4, b5, b6, b7⟩ := c
  exact stepFlagsB_access_one b1 b2 b3 b4 b5 b6 b7 _ _ _ _ _ _ ha
    (pub_hyp s) (prot_hyp s) (priv_hyp s) hd

/-- A step from exactly one access flag, directly inside before and
after, keeps exactly one access flag. -/
theorem stepFlags_keep_one (c : CtxFlags) (s : List Char)
    (h1 : accessCount c = 1) (h2 : directlyInside c = true)
    (hd : directlyInside (stepFlags c s) = true) :
    accessCount (stepFlags c s) = 1 := by
  rw [stepFlags_eq_stepFlagsB] at hd ⊢
  obtain ⟨b1, b2, b3, b4, b5, b6, b7⟩ := c
  exact stepFlagsB_keep_one b1 b2 b3 b4 b5 b6 b7 _ _ _ _ _ _ (cls_hyp s) (str_hyp s)
    (pub_hyp s) (prot_hyp s) (priv_hyp s) h1 h2 hd

/-- A non-access line keeps the access-flag count at zero. -/
theorem stepFlags_keep_zero (c : CtxFlags) (s : List Char)
    (hna : isAccessLine s = false) (h0 : accessCount c = 0) :
    accessCount (stepFlags c s) = 0 := by
  have e : (accessHead kwPublic s = false ∧ accessHead kwProtected s = false) ∧
      accessHead kwPrivate s = false := by
    simpa [isAccessLine] using hna
  rw [stepFlags_eq_stepFlagsB]
  obtain ⟨b1, b2, b3, b4, b5, b6, b7⟩ := c
  exact stepFlagsB_keep_zero b1 b2 b3 b4 b5 b6 b7 _ _ _ _ _ _ e.1.1 e.1.2 e.2 h0

/-- A class/struct-opening line leaves no access flag set. -/
theorem stepFlags_typeopen_zero (c : CtxFlags) (s : List Char)
    (ht : isTypeOpenLine s = true) :
    accessCount (stepFlags c s) = 0 := by
  have hclspub : (!((classHead kwClass s).isSome) ||
      (!(accessHead kwPublic s) && !(accessHead kwProtected s) &&
        !(accessHead kwPrivate s))) = true := by
    cases hcls : (classHead kwClass s).isSome
    · simp
    · have epub : accessHead kwPublic s = false := by
        cases hp : accessHead kwPublic s
        · rfl
        · have := (pub_excl hp).2.2.1
          simp [hcls] at this
      have eprot : accessHead kwProtected s = false := by
        cases hp : accessHead kwProtected s
        · rfl
        · have := (prot_excl hp).2.1
          simp [hcls] at this
      have epriv : accessHead kwPrivate s = false := by
        cases hp : accessHead kwPrivate s
        · rfl
        · have := (priv_excl hp).1
          simp [hcls] at this
      simp [epub, eprot, epriv]
  have hstrpub : (!((classHead kwStruct s).isSome) ||
      (!(accessHead kwPublic s) && !(accessHead kwProtected s) &&
        !(accessHead kwPrivate s))) = true := by
    cases hstr : (classHead kwStruct s).isSome
    · simp
    · have epub : accessHead kwPublic s = false := by
        cases hp : accessHead kwPublic s
        · rfl
        · have := (pub_excl hp).2.2.2.1
          simp [hstr] at this
      have eprot : accessHead kwProtected s = false := by
        cases hp : accessHead kwProtected s
        · rfl
        · have := (prot_excl hp).2.2.1
          simp [hstr] at this
      have epriv : accessHead kwPrivate s = false := by
        cases hp : accessHead kwPrivate s
        · rfl
        · have := (priv_excl hp).2.1
          simp [hstr] at this
      simp [epub, eprot, epriv]
  rw [stepFlags_eq_stepFlagsB]
  obtain ⟨b1, b2, b3, b4, b5, b6, b7⟩ := c
  exact stepFlagsB_typeopen_zero b1 b2 b3 b4 b5 b6 b7 _ _ _ _ _ _ ht hclspub hstrpub

/-- One step preserves the context-flag invariant, on actual lines. -/
theorem stepFlags_inv (c : CtxFlags) (s : List Char) (h : ctxInv c = true) :
    ctxInv (stepFlags c s) = true := by
  rw [stepFlags_eq_stepFlagsB]
  obtain ⟨b1, b2, b3, b4, b5, b6, b7⟩ := c
  exact stepFlagsB_inv b1 b2 b3 b4 b5 b6 b7 _ _ _ _ _ _ h

/-! ## Global lemmas along the flagging scan -/

/-- The stamped flags at index `i`, written as one step from the folded
state. -/
theorem flagLines_ctx_rep (lines : List Line) (i : Nat) (h : i < lines.length) :
    ((flagLines lines).getD i degenerateLine).ctx =
      stepFlags (foldState initFlagState (lines.take i)).ctx
        ((lines.getD i degenerateLine).stripped.data) := by
  unfold flagLines
  rw [flagLinesGo_getD _ _ i h, flagStep_snd_ctx]

/-- The context-flag invariant holds for every folded state. -/
theorem foldState_ctx_inv (ls : List Line) (st : FlagState)
    (h : ctxInv st.ctx = true) : ctxInv (foldState st ls).ctx = true := by
  induction ls generalizing st with
  | nil => exact h
  | cons l ls ih =>
    exact ih (flagStep st l).1 (by rw [flagStep_fst_ctx]; exact stepFlags_inv _ _ h)

/-- The context-flag invariant holds on every stamped line. -/
theorem flagLines_ctx_inv (lines : List Line) (i : Nat) (h : i < lines.length) :
    ctxInv ((flagLines lines).getD i degenerateLine).ctx = true := by
  rw [flagLines_ctx_rep lines i h]
  exact stepFlags_inv _ _ (foldState_ctx_inv _ _ (by decide))

/-- From an access-specifier line onward, while every stamped line stays
directly inside a non-nested class/struct body, exactly one access flag
remains set. -/
theorem flagLines_access_persists (lines : List Line) (i j : Nat) (hij : i ≤ j)
    (hj : j < lines.length)
    (hins : ∀ k, i ≤ k → k ≤ j →
      directlyInside ((flagLines lines).getD k degenerateLine).ctx = true)
    (hacc : isAccessLine ((lines.getD i degenerateLine).stripped.data) = true) :
    accessCount ((flagLines lines).getD j degenerateLine).ctx = 1 := by
  revert hj hins
  induction j, hij using Nat.le_induction with
  | base =>
    intro hj hins
    rw [flagLines_ctx_rep lines i hj]
    refine stepFlags_access_one _ _ hacc ?_
    rw [← flagLines_ctx_rep lines i hj]
    exact hins i le_rfl le_rfl
  | succ j hij ih =>
    intro hj hins
    have hjlt : j < lines.length := Nat.lt_of_succ_lt hj
    have hstep := flagLines_ctx_succ lines j hj
    rw [hstep]
    refine stepFlags_keep_one _ _ ?_ ?_ ?_
    · exact ih hjlt (fun k hk1 hk2 => hins k hk1 (Nat.le_succ_of_le hk2))
    · exact hins j hij (Nat.le_succ j)
    · rw [← hstep]
      exact hins (j + 1) (Nat.le_succ_of_le hij) le_rfl

/-- After a class/struct-opening line, while no access-specifier line
occurs, no access flag is set. -/
theorem flagLines_noaccess_zero (lines : List Line) (i j : Nat) (hij : i ≤ j)
    (hj : j < lines.length)
    (hopen : isTypeOpenLine ((lines.getD i degenerateLine).stripped.data) = true)
    (hnoacc : ∀ k, i ≤ k → k ≤ j →
      isAccessLine ((lines.getD k degenerateLine).stripped.data) = false) :
    accessCount ((flagLines lines).getD j degenerateLine).ctx = 0 := by
  revert hj hnoacc
  induction j, hij using Nat.le_induction with
  | base =>
    intro hj hnoacc
    rw [flagLines_ctx_rep lines i hj]
    exact stepFlags_typeopen_zero _ _ hopen
  | succ j hij ih =>
    intro hj hnoacc
    have hjlt : j < lines.length := Nat.lt_of_succ_lt hj
    rw [flagLines_ctx_succ lines j hj]
    refine stepFlags_keep_zero _ _ ?_ ?_
    · exact hnoacc (j + 1) (Nat.le_succ_of_le hij) le_rfl
    · exact ih hjlt (fun k hk1 hk2 => hnoacc k hk1 (Nat.le_succ_of_le hk2))

/-! ## Structure of `parseLines` -/

/-- The stripping loop emits one `Line` per raw line. -/
theorem parseLinesGo_length (ft : String) (raws : List String) :
    ∀ (ic ip : Bool) (base : Nat), (parseLinesGo ft ic ip base raws).length = raws.length := by
  induction raws with
  | nil => intro ic ip base; rfl
  | cons raw rest ih =>
    intro ic ip base
    simp only [parseLinesGo, List.length_cons]
    rw [ih]

/-- `flagLines` preserves the number of lines. -/
theorem flagLines_length (lines : List Line) :
    (flagLines lines).length = lines.length := flagLinesGo_length _ _

/-- `parseLines` returns exactly one `Line` per raw input line. -/
theorem parseLines_length (raws : List String) (ft : String) :
    (parseLines raws ft).length = raws.length := by
  unfold parseLines
  rw [flagLines_length, parseLinesGo_length]

/-- The stripping loop numbers its output consecutively from the running
counter. -/
theorem parseLinesGo_number (ft : String) (raws : List String) :
    ∀ (ic ip : Bool) (base i : Nat), i < raws.length →
      ((parseLinesGo ft ic ip base raws).getD i degenerateLine).number = base + i + 1 := by
  induction raws with
  | nil => intro ic ip base i h; simp at h
  | cons raw rest ih =>
    intro ic ip base i h
    cases i with
    | zero => rfl
    | succ i =>
      simp only [parseLinesGo, List.getD_cons_succ]
      rw [ih _ _ (base + 1) i (by simpa using h)]
      omega

/-- The stripping loop keeps each raw line verbatim. -/
theorem parseLinesGo_raw (ft : String) (raws : List String) :
    ∀ (ic ip : Bool) (base i : Nat), i < raws.length →
      ((parseLinesGo ft ic ip base raws).getD i degenerateLine).raw = raws.getD i "" := by
  induction raws with
  | nil => intro ic ip base i h; simp at h
  | cons raw rest ih =>
    intro ic ip base i h
    cases i with
    | zero => rfl
    | succ i =>
      simp only [parseLinesGo, List.getD_cons_succ]
      exact ih _ _ (base + 1) i (by simpa using h)

/-- The lines returned by `parseLines` are numbered `1..n` in input
order. -/
theorem parseLines_number (raws : List String) (ft : String) (i : Nat)
    (h : i < raws.length) :
    ((parseLines raws ft).getD i degenerateLine).number = i + 1 := by
  unfold parseLines
  rw [flagLines_number _ i (by rw [parseLinesGo_length]; exact h),
      parseLinesGo_number ft raws false false 0 i h]
  omega

/-- The lines returned by `parseLines` keep their raw text. -/
theorem parseLines_raw (raws : List String) (ft : String) (i : Nat)
    (h : i < raws.length) :
    ((parseLines raws ft).getD i degenerateLine).raw = raws.getD i "" := by
  unfold parseLines
  rw [flagLines_raw _ i (by rw [parseLinesGo_length]; exact h),
      parseLinesGo_raw ft raws false false 0 i h]

/-! ## The stable sort and the aggregation pipeline -/

/-- Membership through `sortedInsert`. -/
theorem mem_sortedInsert (x v : Violation) (l : List Violation) :
    x ∈ sortedInsert v l ↔ x = v ∨ x ∈ l := by
  induction l with
  | nil => simp [sortedInsert]
  | cons w ws ih =>
    by_cases hw : w.lineNumber < v.lineNumber
    · simp only [sortedInsert, if_pos hw, List.mem_cons, ih]
      tauto
    · simp only [sortedInsert, if_neg hw, List.mem_cons]

/-- `sortedInsert` preserves sortedness by line number. -/
theorem sortedInsert_pairwise (v : Violation) (l : List Violation)
    (h : l.Pairwise (fun a b => a.lineNumber ≤ b.lineNumber)) :
    (sortedInsert v l).Pairwise (fun a b => a.lineNumber ≤ b.lineNumber) := by
  induction l with
  | nil => simp [sortedInsert]
  | cons w ws ih =>
    rw [List.pairwise_cons] at h
    by_cases hw : w.lineNumber < v.lineNumber
    · rw [sortedInsert, if_pos hw, List.pairwise_cons]
      constructor
      · intro x hx
        rcases (mem_sortedInsert x v ws).mp hx with rfl | hx
        · exact Nat.le_of_lt hw
        · exact h.1 x hx
      · exact ih h.2
    · rw [sortedInsert, if_neg hw, List.pairwise_cons]
      constructor
      · intro x hx
        rcases List.mem_cons.mp hx with rfl | hx
        · omega
        · exact Nat.le_trans (by omega) (h.1 x hx)
      · exact List.pairwise_cons.mpr h

/-- The modelled `sorted` is sorted by line number. -/
theorem sortByLineNumber_pairwise (l : List Violation) :
    (sortByLineNumber l).Pairwise (fun a b => a.lineNumber ≤ b.lineNumber) := by
  induction l with
  | nil => simp [sortByLineNumber]
  | cons v vs ih => exact sortedInsert_pairwise v _ ih

/-- Membership through the modelled `sorted`. -/
theorem mem_sortByLineNumber (x : Violation) (l : List Violation) :
    x ∈ sortByLineNumber l ↔ x ∈ l := by
  induction l with
  | nil => simp [sortByLineNumber]
  | cons v vs ih =>
    rw [sortByLineNumber, mem_sortedInsert, ih, List.mem_cons]

/-- Filtering one line number through `sortedInsert`: the inserted
violation lands in front of every equal-keyed violation that was already
present. -/
theorem sortedInsert_filter_key (v : Violation) (l : List Violation) (n : Nat) :
    (sortedInsert v l).filter (fun w => decide (w.lineNumber = n)) =
      if v.lineNumber = n then
        v :: l.filter (fun w => decide (w.lineNumber = n))
      else l.filter (fun w => decide (w.lineNumber = n)) := by
  induction l with
  | nil => by_cases hv : v.lineNumber = n <;> simp [sortedInsert, hv]
  | cons w ws ih =>
    by_cases hw : w.lineNumber < v.lineNumber
    · rw [sortedInsert, if_pos hw]
      by_cases hv : v.lineNumber = n
      · have hwn : ¬ (w.lineNumber = n) := by omega
        simp [List.filter_cons, hwn, ih, hv]
      · simp [List.filter_cons, ih, hv]
    · rw [sortedInsert, if_neg hw]
      by_cases hv : v.lineNumber = n <;> simp [List.filter_cons, hv]

/-- Stability of the modelled `sorted`: for each line number, the
violations with that number appear in the sorted list exactly in their
original order. -/
theorem sortByLineNumber_filter_key (l : List Violation) (n : Nat) :
    (sortByLineNumber l).filter (fun w => decide (w.lineNumber = n)) =
      l.filter (fun w => decide (w.lineNumber = n)) := by
  induction l with
  | nil => rfl
  | cons v vs ih =>
    rw [sortByLineNumber, sortedInsert_filter_key, ih]
    by_cases hv : v.lineNumber = n <;> simp [List.filter_cons, hv]

/-- Two filters of the same list commute. -/
theorem filter_swap {α : Type} (p q : α → Bool) (l : List α) :
    (l.filter p).filter q = (l.filter q).filter p := by
  induction l with
  | nil => rfl
  | cons a l ih =>
    by_cases hp : p a <;> by_cases hq : q a <;> simp [List.filter_cons, hp, hq, ih]

/-! ## Claim theorems -/

/-- Claim C1: the claim states that every rule evaluation completes
without an exception and that `getDefinitionLength` returns for every
starting index.  The code violates this: `TestEmacsHeader.apply` indexes
`lines[0]` on the empty line sequence (an `IndexError`, modelled `none`),
and `getDefinitionLength` on a file whose only line is a definition
opener `inline int f() {` scans forward for a `}` past the end of the
list (an `IndexError`, modelled `none`).  This theorem evaluates the
embedded code at both failing inputs. -/
theorem c1_rule_evaluation_raises :
    applyTestEmacsHeader (testEmacsHeader "cc") (parseLines [] "cc") = none ∧
      getDefinitionLength unclosedDemo 1 = none := by
  constructor
  · decide
  · decide

/-- Claim C2 counterexample: on the one-line file `{{` the stamped
`nNested` is 1 — the source increments once per line containing `{` —
while the claim's per-character count `#'{' - #'}'` is 2, so the claim's
equation fails at this input (the preceding depth is 0). -/
theorem c2_counterexample_two_braces_one_line :
    (doubleBraceDemo.getD 0 degenerateLine).nNested = 1 ∧
      braceCharDelta ((doubleBraceDemo.getD 0 degenerateLine).stripped.data) = 2 ∧
      (doubleBraceDemo.getD 0 degenerateLine).nNested ≠
        braceCharDelta ((doubleBraceDemo.getD 0 degenerateLine).stripped.data) := by
  refine ⟨by decide, by decide, by decide⟩

/-- Claim C2 (amended): for every line of the annotated sequence, the
stamped `nNested` equals the previous line's depth plus one if the line's
normalized text contains at least one `{`, minus one if it contains at
least one `}` (a per-line presence test, not a per-character count), with
no clamping at zero, and the stamped value includes the effect of that
line's own braces. -/
theorem c2_nNested_recurrence (lines : List Line) :
    (∀ (_ : 0 < lines.length),
        ((flagLines lines).getD 0 degenerateLine).nNested =
          braceDelta ((lines.getD 0 degenerateLine).stripped.data)) ∧
      (∀ i, i + 1 < lines.length →
        ((flagLines lines).getD (i + 1) degenerateLine).nNested =
          ((flagLines lines).getD i degenerateLine).nNested +
            braceDelta ((lines.getD (i + 1) degenerateLine).stripped.data)) :=
  ⟨fun h => flagLines_nNested_zero lines h,
   fun i h => flagLines_nNested_succ lines i h⟩

/-- Claim C2 witness: the recurrence applied to the one-line file `}`
(whose stamped depth is the unclamped −1). -/
theorem c2_nNested_recurrence_witness :
    ((flagLines (parseLinesGo "cc" false false 0 ["\x7d"])).getD 0 degenerateLine).nNested =
      braceDelta (((parseLinesGo "cc" false false 0 ["\x7d"]).getD 0
        degenerateLine).stripped.data) :=
  (c2_nNested_recurrence (parseLinesGo "cc" false false 0 ["\x7d"])).1 (by decide)

/-- Claim C3 counterexample: `getFunctionNames` recognises only the
primitive types of `getPrimitives` and capitalised user types as return
types; `void` is neither, so the claim's example line yields no function
name at all, not `doThing`. -/
theorem c3_counterexample_void_not_recognised :
    getFunctionNames "void doThing(int x, int y) \x7b" = [] ∧
      "doThing" ∉ getFunctionNames "void doThing(int x, int y) \x7b" := by
  refine ⟨by decide, by decide⟩

/-- Claim C3 (amended): declaration extraction on `int fooBar = 5;`
yields exactly the variable `fooBar`; `getVariableNames` on
`void doThing(int x, int y) {` yields exactly the variables `x` and `y`;
`getFunctionNames` on that line yields nothing, because `void` is not a
recognised return type; with a recognised return type, as in
`int doThing(int x, int y) {`, it yields the function name `doThing`. -/
theorem c3_declaration_extraction_examples :
    getVariableNames "int fooBar = 5;" = ["fooBar"] ∧
      getVariableNames "void doThing(int x, int y) \x7b" = ["x", "y"] ∧
      getFunctionNames "void doThing(int x, int y) \x7b" = [] ∧
      getFunctionNames "int doThing(int x, int y) \x7b" = ["doThing"] := by
  refine ⟨by decide, by decide, by decide, by decide⟩

/-- Claim C6: the claim states the ignore-list loader never aborts, drops
malformed lines, and accumulates line numbers per (file, rule).  The code
does none of this: a malformed (two-token) line raises `ValueError` from
tuple unpacking, and any second entry whose file is already present
evaluates `ignore[igFile].has_key[igRule]` — a subscripted bound method —
and raises `TypeError`, so accumulation never succeeds; only entries for
pairwise-distinct files load. -/
theorem c6_ignore_loader_crashes :
    loadIgnore ["a.cc 3-1 5", "a.cc 3-1 7"] = Except.error PyError.typeError ∧
      loadIgnore ["a.cc 3-1"] = Except.error PyError.valueError ∧
      loadIgnore ["# comment", "   ", "a.cc 3-1 5", "b.cc 4-6 2"] =
        Except.ok [("a.cc", [("3-1", ["5"])]), ("b.cc", [("4-6", ["2"])])] := by
  refine ⟨by decide, by decide, by decide⟩

/-- Count bound extracted from the context-flag invariant. -/
theorem ctxInv_count_le (c : CtxFlags) (h : ctxInv c = true) : accessCount c ≤ 1 := by
  obtain ⟨b1, b2, b3, b4, b5, b6, b7⟩ := c
  revert h
  revert b1 b2 b3 b4 b5 b6 b7
  decide

/-- Outside any class/struct, the three access flags are all false (from
the invariant). -/
theorem ctxInv_outside_false (c : CtxFlags) (h : ctxInv c = true)
    (h1 : c.inClass = false) (h2 : c.inStruct = false) :
    c.inPublic = false ∧ c.inProtected = false ∧ c.inPrivate = false := by
  obtain ⟨b1, b2, b3, b4, b5, b6, b7⟩ := c
  revert h h1 h2
  revert b1 b2 b3 b4 b5 b6 b7
  decide

/-- An access-flag count of zero means all three flags are false. -/
theorem accessCount_zero_false (c : CtxFlags) (h : accessCount c = 0) :
    c.inPublic = false ∧ c.inProtected = false ∧ c.inPrivate = false := by
  obtain ⟨b1, b2, b3, b4, b5, b6, b7⟩ := c
  revert h
  revert b1 b2 b3 b4 b5 b6 b7
  decide

/-- Claim C4 counterexample: in a class whose `public:` section contains
a nested class, the line after the nested class's `};` (line 5, `int x;`)
is stamped directly inside the non-nested outer class body and follows
the body's first access-specifier line (line 2), yet none of the three
access flags is set — the nested `class` line reset them — contradicting
the claim's "exactly one is true on every line from the first
access-specifier line onward". -/
theorem c4_counterexample_nested_class_resets_access :
    (nestedClassDemo.getD 4 degenerateLine).inClass = true ∧
      (nestedClassDemo.getD 4 degenerateLine).inNestedClass = false ∧
      (nestedClassDemo.getD 4 degenerateLine).inStruct = false ∧
      (nestedClassDemo.getD 4 degenerateLine).inNestedStruct = false ∧
      isAccessLine ((nestedClassDemo.getD 1 degenerateLine).stripped.data) = true ∧
      (nestedClassDemo.getD 1 degenerateLine).inClass = true ∧
      (nestedClassDemo.getD 2 degenerateLine).inClass = true ∧
      (nestedClassDemo.getD 3 degenerateLine).inClass = true ∧
      (nestedClassDemo.getD 4 degenerateLine).inPublic = false ∧
      (nestedClassDemo.getD 4 degenerateLine).inProtected = false ∧
      (nestedClassDemo.getD 4 degenerateLine).inPrivate = false := by
  refine ⟨by decide, by decide, by decide, by decide, by decide, by decide,
    by decide, by decide, by decide, by decide, by decide⟩

/-- Claim C4 (amended): for every line stamped by the flagging pass, at
most one of `inPublic`/`inProtected`/`inPrivate` is true; outside any
class/struct all three are false; from an access-specifier line onward,
exactly one is true on every line as long as every stamped line in
between stays directly inside a non-nested class/struct body (a nested
class/struct opening leaves that region and resets the access flags, as
the counterexample shows); and from a class/struct-opening line onward,
none is true while no access-specifier line has occurred. -/
theorem c4_access_flag_discipline (lines : List Line) :
    (∀ i, i < lines.length →
        accessCount ((flagLines lines).getD i degenerateLine).ctx ≤ 1) ∧
      (∀ i, i < lines.length →
        ((flagLines lines).getD i degenerateLine).inClass = false →
        ((flagLines lines).getD i degenerateLine).inStruct = false →
        ((flagLines lines).getD i degenerateLine).inPublic = false ∧
          ((flagLines lines).getD i degenerateLine).inProtected = false ∧
          ((flagLines lines).getD i degenerateLine).inPrivate = false) ∧
      (∀ i j, i ≤ j → j < lines.length →
        (∀ k, i ≤ k → k ≤ j →
          directlyInside ((flagLines lines).getD k degenerateLine).ctx = true) →
        isAccessLine (((flagLines lines).getD i degenerateLine).stripped.data) = true →
        accessCount ((flagLines lines).getD j degenerateLine).ctx = 1) ∧
      (∀ i j, i ≤ j → j < lines.length →
        isTypeOpenLine (((flagLines lines).getD i degenerateLine).stripped.data) = true →
        (∀ k, i ≤ k → k ≤ j →
          isAccessLine (((flagLines lines).getD k degenerateLine).stripped.data) = false) →
        ((flagLines lines).getD j degenerateLine).inPublic = false ∧
          ((flagLines lines).getD j degenerateLine).inProtected = false ∧
          ((flagLines lines).getD j degenerateLine).inPrivate = false) := by
  refine ⟨?_, ?_, ?_, ?_⟩
  · intro i h
    exact ctxInv_count_le _ (flagLines_ctx_inv lines i h)
  · intro i h h1 h2
    exact ctxInv_outside_false _ (flagLines_ctx_inv lines i h) h1 h2
  · intro i j hij hj hins hacc
    have hi : i < lines.length := Nat.lt_of_le_of_lt hij hj
    rw [flagLines_stripped lines i hi] at hacc
    exact flagLines_access_persists lines i j hij hj hins hacc
  · intro i j hij hj hopen hnoacc
    have hi : i < lines.length := Nat.lt_of_le_of_lt hij hj
    rw [flagLines_stripped lines i hi] at hopen
    refine accessCount_zero_false _ ?_
    refine flagLines_noaccess_zero lines i j hij hj hopen ?_
    intro k hk1 hk2
    have hk : k < lines.length := Nat.lt_of_le_of_lt hk2 hj
    rw [← flagLines_stripped lines k hk]
    exact hnoacc k hk1 hk2

/-- Claim C4 witness: in a plain class `class A { public: int x; };`, the
member line after the access specifier carries exactly one access
flag. -/
theorem c4_access_flag_discipline_witness :
    accessCount ((flagLines (parseLinesGo "h" false false 0
      ["class A \x7b", "public:", "int x;", "\x7d;"])).getD 2 degenerateLine).ctx = 1 := by
  refine (c4_access_flag_discipline _).2.2.1 1 2 (by omega) (by decide) ?_ (by decide)
  intro k hk1 hk2
  interval_cases k
  · decide
  · decide

/-- Claim C5: a violation whose line carries an inline-suppression marker
naming the violation's rule (the token `LsstDm-<id>` recorded in
`line.suppress`) never appears in the final output list, for every
violation list, ignore map, input file and severity cutoff. -/
theorem c5_suppressed_never_in_output (vlist : List Violation) (ign : IgnoreMap)
    (infile : String) (cutoff : Int) (v : Violation)
    (h : ("LsstDm-" ++ v.getId) ∈ v.line.suppress) :
    v ∉ finalViolations vlist ign infile cutoff := by
  intro hmem
  unfold finalViolations violationFinal at hmem
  have h1 := (List.mem_filter.mp hmem).1
  have h2 := (List.mem_filter.mp h1).2
  have hsup : isSuppressed v = true := by
    simp only [isSuppressed, suppressTag]
    simp only [Violation.getId] at h
    simp [h]
  simp [hsup] at h2

/-- Claim C5 witness: the suppressed demo violation, whose line carries
`parasoft-suppress LsstDm-4-6`, is absent from the output built from the
one-element violation list at the default cutoff. -/
theorem c5_suppressed_never_in_output_witness :
    ("LsstDm-" ++ suppressedDemo.getId) ∈ suppressedDemo.line.suppress ∧
      suppressedDemo ∉ finalViolations [suppressedDemo] [] "t.cc" 5 :=
  ⟨by decide,
   c5_suppressed_never_in_output [suppressedDemo] [] "t.cc" 5 suppressedDemo (by decide)⟩

/-- Claim C7: for every raw line list and every file type, `parseLines`
returns exactly one `Line` per input line, in input order: the lengths
agree, and the `i`-th line carries number `i + 1` and the `i`-th raw
text, with the numbers assigned once and never changed by the flagging
pass. -/
theorem c7_parseLines_one_line_per_input (raws : List String) (ft : String) :
    (parseLines raws ft).length = raws.length ∧
      (∀ i, i < raws.length →
        ((parseLines raws ft).getD i degenerateLine).number = i + 1 ∧
          ((parseLines raws ft).getD i degenerateLine).raw = raws.getD i "") :=
  ⟨parseLines_length raws ft,
   fun i h => ⟨parseLines_number raws ft i h, parseLines_raw raws ft i h⟩⟩

/-- Claim C7 witness: on a concrete two-line input, line index 1 carries
number 2 and its own raw text. -/
theorem c7_parseLines_one_line_per_input_witness :
    ((parseLines ["int a;", "int b;"] "cc").getD 1 degenerateLine).number = 1 + 1 ∧
      ((parseLines ["int a;", "int b;"] "cc").getD 1 degenerateLine).raw =
        (["int a;", "int b;"].getD 1 "") :=
  (c7_parseLines_one_line_per_input ["int a;", "int b;"] "cc").2 1 (by decide)

/-- Claim C8: the final violation list is sorted by line number
ascending, and for each line number the violations carrying it are
exactly those of the accumulated violation list — in their original
rule-evaluation order — that pass the suppression, ignore and severity
filters (the modelled `sorted` is the stable sort, and filtering
preserves relative order); the pipeline is a pure function of its inputs,
so repeated runs on unchanged input produce the identical list. -/
theorem c8_output_sorted_and_stable (vlist : List Violation) (ign : IgnoreMap)
    (infile : String) (cutoff : Int) :
    (finalViolations vlist ign infile cutoff).Pairwise
      (fun a b => a.getLineNumber ≤ b.getLineNumber) ∧
      ∀ n, (finalViolations vlist ign infile cutoff).filter
          (fun v => decide (v.lineNumber = n)) =
        ((vlist.filter (fun v => decide (v.lineNumber = n))).filter
            (fun v => !(isSuppressed v))).filter
          (fun v => !(doIgnore ign infile v) && decide (v.getSeverity ≤ cutoff)) := by
  constructor
  · unfold finalViolations violationFinal
    exact ((sortByLineNumber_pairwise vlist).sublist (List.filter_sublist _)).sublist
      (List.filter_sublist _)
  · intro n
    unfold finalViolations violationFinal
    rw [filter_swap (fun v => !(doIgnore ign infile v) && decide (v.getSeverity ≤ cutoff))
          (fun v => decide (v.lineNumber = n)),
        filter_swap (fun v => !(isSuppressed v)) (fun v => decide (v.lineNumber = n)),
        sortByLineNumber_filter_key]

/-- Claim C10: every test instance placed in the catalog by
`initializeTestList` is constructed with severity 1; hence every
violation whose test comes from the catalog has severity 1; the default
cutoff 5 admits severity 1; and with any cutoff of at least 1 the
severity filter of `main` removes nothing — the output equals the
pipeline without the severity test. -/
theorem c10_catalog_severity_one :
    (∀ (ft infile : String) (t : Test), t ∈ testListInit ft infile → t.severity = 1) ∧
      (∀ (ft infile : String) (v : Violation), v.test ∈ testListInit ft infile →
        v.getSeverity = 1) ∧
      (1 : Int) ≤ defaultSeverity ∧
      (∀ (ft infile infile2 : String) (vlist : List Violation) (ign : IgnoreMap)
          (cutoff : Int),
        (∀ v ∈ vlist, v.test ∈ testListInit ft infile) → 1 ≤ cutoff →
        finalViolations vlist ign infile2 cutoff =
          (violationFinal vlist).filter (fun v => !(doIgnore ign infile2 v))) := by
  have hall : ∀ (ft infile : String) (t : Test), t ∈ testListInit ft infile →
      t.severity = 1 := by
    intro ft infile t ht
    have h := List.all_eq_true.mp (show (testListInit ft infile).all
      (fun t => t.severity == 1) = true from rfl) t ht
    simpa using h
  refine ⟨hall, ?_, by decide, ?_⟩
  · intro ft infile v hv
    simpa [Violation.getSeverity] using hall ft infile v.test hv
  · intro ft infile infile2 vlist ign cutoff hcat hcut
    unfold finalViolations
    apply List.filter_congr
    intro v hv
    have hvmem : v ∈ vlist := by
      unfold violationFinal at hv
      exact (mem_sortByLineNumber v vlist).mp (List.mem_filter.mp hv).1
    have hsev : v.getSeverity = 1 := by
      simpa [Violation.getSeverity] using hall ft infile v.test (hcat v hvmem)
    have hd : decide (v.getSeverity ≤ cutoff) = true :=
      decide_eq_true (by rw [hsev]; exact hcut)
    simp [hd]

/-- Claim C10 witness: the catalog's K&R test has severity 1, and a
violation built from it has severity 1. -/
theorem c10_catalog_severity_one_witness :
    (testKR "cc").severity = 1 ∧
      (mkViolation (testKR "cc") degenerateLine "").getSeverity = 1 :=
  ⟨c10_catalog_severity_one.1 "cc" "f.cc" (testKR "cc") (by decide),
   c10_catalog_severity_one.2.1 "cc" "f.cc" (mkViolation (testKR "cc") degenerateLine "")
     (by decide)⟩

/-- Claim C9: when the first line's normalized text starts (after
whitespace) with `{`, the K&R rule's look-back `lines[line.number - 2]`
accesses index −1, which in Python is the last line of the file; hence
line 1 is reported as a K&R violation exactly when the file's final
line's normalized text is non-blank — independent of any line "before"
line 1. -/
theorem c9_kr_lookback_wraps_to_last_line (raws : List String) (ft : String)
    (hft : ft ∈ ["c", "cc", "h"]) (hne : raws ≠ [])
    (hopen : matchKROpen (((parseLines raws ft).getD 0 degenerateLine).stripped.data)
      = true) :
    (∃ v, v ∈ applyTestKR (testKR ft) (parseLines raws ft) ∧ v.getLineNumber = 1) ↔
      hasNonWs (((parseLines raws ft).getD ((parseLines raws ft).length - 1)
        degenerateLine).stripped.data) = true := by
  set L := parseLines raws ft with hL
  have hlen : L.length = raws.length := parseLines_length raws ft
  have hpos : 0 < raws.length := List.length_pos.mpr hne
  have hLpos : 0 < L.length := by omega
  have happ : applyTestKR (testKR ft) L =
      L.flatMap (fun line =>
        if matchKROpen line.stripped.data &&
            hasNonWs (pyIndexD L ((line.number : Int) - 2)).stripped.data then
          [mkViolation (testKR ft) line ""]
        else []) := by
    unfold applyTestKR
    rw [if_pos]
    show (testKR ft).typeList.contains (testKR ft).filetype = true
    exact List.elem_eq_true_of_mem hft
  have hnum0 : (L.getD 0 degenerateLine).number = 1 := parseLines_number raws ft 0 hpos
  have hwrap : ((L.getD 0 degenerateLine).number : Int) - 2 = -1 := by
    rw [hnum0]; decide
  have hpyidx : pyIndexD L (-1) = L.getD (L.length - 1) degenerateLine := by
    unfold pyIndexD
    rw [if_pos (by decide : (-1 : Int) < 0)]
    congr 1
    omega
  constructor
  · rintro ⟨v, hv, hnumv⟩
    rw [happ] at hv
    obtain ⟨line, hline, hvf⟩ := List.mem_flatMap.mp hv
    by_cases hc : matchKROpen line.stripped.data &&
        hasNonWs (pyIndexD L ((line.number : Int) - 2)).stripped.data
    · rw [if_pos hc] at hvf
      have hveq : v = mkViolation (testKR ft) line "" := by simpa using hvf
      have hlinenum : line.number = 1 := by
        have : v.getLineNumber = line.number := by rw [hveq]; rfl
        omega
      have hline0 : line = L.getD 0 degenerateLine := by
        obtain ⟨i, hi, hgi⟩ := List.mem_iff_getElem.mp hline
        have hnumi : (L.getD i degenerateLine).number = i + 1 :=
          parseLines_number raws ft i (by omega)
        rw [List.getD_eq_getElem L degenerateLine hi, hgi] at hnumi
        have hi0 : i = 0 := by omega
        subst hi0
        rw [← hgi]
        exact (List.getD_eq_getElem L degenerateLine hLpos).symm
      have hc2 : hasNonWs (pyIndexD L ((line.number : Int) - 2)).stripped.data = true := by
        simp only [Bool.and_eq_true] at hc
        exact hc.2
      rw [hline0] at hc2
      rw [hwrap, hpyidx] at hc2
      exact hc2
    · rw [if_neg hc] at hvf
      simp at hvf
  · intro hnw
    refine ⟨mkViolation (testKR ft) (L.getD 0 degenerateLine) "", ?_, ?_⟩
    · rw [happ]
      refine List.mem_flatMap.mpr ⟨L.getD 0 degenerateLine, ?_, ?_⟩
      · rw [List.getD_eq_getElem L degenerateLine hLpos]
        exact List.getElem_mem hLpos
      · rw [if_pos]
        · simp
        · rw [hwrap, hpyidx]
          simp only [Bool.and_eq_true]
          exact ⟨hopen, hnw⟩
    · show (L.getD 0 degenerateLine).number = 1
      exact hnum0

/-- Claim C9 witness: on the two-line file `{` / `int x;`, whose last
line is non-blank, line 1 is reported by the K&R rule. -/
theorem c9_kr_lookback_wraps_to_last_line_witness :
    ∃ v, v ∈ applyTestKR (testKR "cc") (parseLines ["\x7b", "int x;"] "cc") ∧
      v.getLineNumber = 1 :=
  (c9_kr_lookback_wraps_to_last_line ["\x7b", "int x;"] "cc" (by decide) (by decide)
    (by decide)).mpr (by decide)

end Style
